import Mathlib

/-!
Verification of the LangGraph PR-review workflow
(src/app/service/workflow_service_langgraph.py).

The development shallowly embeds the workflow: Python dict values that can
flow out of json.loads are modelled by the inductive type Json; the mutable
TypedDict PRReviewState becomes a Lean structure whose optional keys are
Option-valued; each graph node becomes a function from the incoming state
(plus an oracle for its external calls: the language model and the GitHub
client) to either a successor state or an exception carrying the state at
raise time.  The LangGraph wiring becomes a step relation on
node/state configurations, and run-level claims are proved as invariants of
the reachable configurations.
-/

set_option maxHeartbeats 1000000

namespace PRReview

/-- Right brace character, written via its code point. -/
def rbraceC : Char := Char.ofNat 125

/-- Left brace character, written via its code point. -/
def lbraceC : Char := Char.ofNat 123

/-- Single quote character, written via its code point. -/
def squoteC : Char := Char.ofNat 39

/-- A Python value as produced by json.loads: None, bool, number, str,
list, dict, plus the non-finite floats of the NaN/Infinity extension that
json.loads accepts by default.  A finite number is kept exact as mantissa
times ten to the exponent (covering both ints and floats). -/
inductive Json where
  | null : Json
  | bool (b : Bool) : Json
  | num (n : Int) (e : Int) : Json
  | nan : Json
  | inf (neg : Bool) : Json
  | str (s : String) : Json
  | arr (xs : List Json) : Json
  | obj (kvs : List (String × Json)) : Json

/-- Python truthiness of a value: None, False, 0, empty string, empty list
and empty dict are falsy, everything else truthy. -/
def pyTruthy : Json → Bool
  | .null => false
  | .bool b => b
  | .num n _ => n ≠ 0
  | .nan => true
  | .inf _ => true
  | .str s => s ≠ ""
  | .arr xs => !xs.isEmpty
  | .obj kvs => !kvs.isEmpty

/-- Truthiness of an optional bool flag: a missing key is falsy
(state.get on a TypedDict returns None). -/
def truthyOpt : Option Bool → Bool
  | some b => b
  | none => false

/-- Python expression x or y where x is an optional state entry:
if the entry is present and truthy it wins, otherwise y. -/
def pyOrJ (a : Option Json) (b : Json) : Json :=
  match a with
  | some j => if pyTruthy j then j else b
  | none => b

/-- Python whitespace characters stripped by str.strip (ASCII subset). -/
def isPyWs (c : Char) : Bool :=
  c = ' ' || c = '\t' || c = '\n' || c = '\r' || c = '\x0b' || c = '\x0c'

/-- Python str.strip restricted to ASCII whitespace. -/
def pyStripStr (s : String) : String :=
  String.mk (((s.toList.dropWhile isPyWs).reverse.dropWhile isPyWs).reverse)

/-- Python value.strip(): succeeds on a str, raises AttributeError on every
other value. -/
def pyStrip : Json → Except Unit String
  | .str s => .ok (pyStripStr s)
  | _ => .error ()

/-- Python len(): defined for str, list and dict, raises TypeError on
every other value. -/
def pyLen : Json → Except Unit Nat
  | .str s => .ok s.length
  | .arr xs => .ok xs.length
  | .obj kvs => .ok kvs.length
  | _ => .error ()

/-- Python dict.get(k): returns the stored value or None; raises
AttributeError when the receiver is not a dict. -/
def jsonGet (j : Json) (k : String) : Except Unit (Option Json) :=
  match j with
  | .obj kvs => .ok ((kvs.find? (fun kv => kv.1 = k)).map Prod.snd)
  | _ => .error ()

/-- Python dict.get(k, d): the stored value when the key is present, the
default otherwise; raises on a non-dict receiver. -/
def jsonGetD (j : Json) (k : String) (d : Json) : Except Unit Json :=
  match jsonGet j k with
  | .ok (some v) => .ok v
  | .ok none => .ok d
  | .error () => .error ()

mutual

/-- Python repr of a decoded JSON value (used by f-string interpolation of
containers).  Numeric literal rendering is approximated by the rational
value; no claim inspects these renderings. -/
def pyRepr : Json → String
  | .null => "None"
  | .bool b => if b then "True" else "False"
  | .num n e => toString n ++ "e" ++ toString e
  | .nan => "nan"
  | .inf neg => if neg then "-inf" else "inf"
  | .str s => String.singleton squoteC ++ s ++ String.singleton squoteC
  | .arr xs => "[" ++ pyReprList xs ++ "]"
  | .obj kvs => String.singleton lbraceC ++ pyReprKVs kvs ++ String.singleton rbraceC

/-- Comma-separated reprs of list elements. -/
def pyReprList : List Json → String
  | [] => ""
  | [x] => pyRepr x
  | x :: xs => pyRepr x ++ ", " ++ pyReprList xs

/-- Comma-separated reprs of dict entries. -/
def pyReprKVs : List (String × Json) → String
  | [] => ""
  | [(k, v)] => String.singleton squoteC ++ k ++ String.singleton squoteC ++ ": " ++ pyRepr v
  | (k, v) :: kvs =>
      String.singleton squoteC ++ k ++ String.singleton squoteC ++ ": " ++ pyRepr v
        ++ ", " ++ pyReprKVs kvs

end

/-- Python str() of a decoded JSON value, as interpolated by an f-string:
a str interpolates verbatim, containers and scalars via repr. -/
def pyStr : Json → String
  | .str s => s
  | j => pyRepr j

/-! ## A model of json.loads

A fuel-indexed recursive-descent parser for RFC 8259 JSON with the
whitespace, escape and number grammar that the Python json module accepts
in its default strict mode, including its NaN, Infinity and -Infinity
constants (decoded as non-finite floats).  Duplicate object keys follow
dict semantics: the later binding wins, keeping the first position. -/

/-- JSON interelement whitespace. -/
def isJsonWs (c : Char) : Bool :=
  c = ' ' || c = '\t' || c = '\n' || c = '\r'

/-- Drop leading JSON whitespace. -/
def jws (cs : List Char) : List Char := cs.dropWhile isJsonWs

/-- Insert a key/value pair into an association list with dict update
semantics: an existing key keeps its position and takes the new value. -/
def dictInsert (kvs : List (String × Json)) (k : String) (v : Json) :
    List (String × Json) :=
  match kvs with
  | [] => [(k, v)]
  | (k0, v0) :: rest =>
      if k0 = k then (k0, v) :: rest else (k0, v0) :: dictInsert rest k v

/-- Hex digit value. -/
def hexVal (c : Char) : Option Nat :=
  if '0' ≤ c ∧ c ≤ '9' then some (c.toNat - '0'.toNat)
  else if 'a' ≤ c ∧ c ≤ 'f' then some (c.toNat - 'a'.toNat + 10)
  else if 'A' ≤ c ∧ c ≤ 'F' then some (c.toNat - 'A'.toNat + 10)
  else none

/-- Parse the body of a JSON string literal after the opening quote,
returning the decoded chars and the input after the closing quote. -/
def parseStringBody (fuel : Nat) (cs : List Char) :
    Option (List Char × List Char) :=
  match fuel with
  | 0 => none
  | fuel + 1 =>
    match cs with
    | [] => none
    | '"' :: rest => some ([], rest)
    | '\\' :: esc :: rest =>
      let decoded : Option (Char × List Char) :=
        match esc with
        | '"' => some ('"', rest)
        | '\\' => some ('\\', rest)
        | '/' => some ('/', rest)
        | 'b' => some ('\x08', rest)
        | 'f' => some ('\x0c', rest)
        | 'n' => some ('\n', rest)
        | 'r' => some ('\r', rest)
        | 't' => some ('\t', rest)
        | 'u' =>
          match rest with
          | h1 :: h2 :: h3 :: h4 :: rest2 =>
            match hexVal h1, hexVal h2, hexVal h3, hexVal h4 with
            | some a, some b, some c, some d =>
                some (Char.ofNat (((a * 16 + b) * 16 + c) * 16 + d), rest2)
            | _, _, _, _ => none
          | _ => none
        | _ => none
      match decoded with
      | some (c, rest2) =>
        match parseStringBody fuel rest2 with
        | some (tail, rem) => some (c :: tail, rem)
        | none => none
      | none => none
    | c :: rest =>
      if c.toNat < 32 then none
      else
        match parseStringBody fuel rest with
        | some (tail, rem) => some (c :: tail, rem)
        | none => none

/-- Longest leading run of decimal digits. -/
def takeDigits (cs : List Char) : List Char × List Char :=
  (cs.takeWhile Char.isDigit, cs.dropWhile Char.isDigit)

/-- Numeric value of a digit run. -/
def digitsToNat (ds : List Char) : Nat :=
  ds.foldl (fun acc c => acc * 10 + (c.toNat - '0'.toNat)) 0

/-- Parse a JSON number (sign, integer part without leading zeros,
optional fraction, optional exponent) into an exact mantissa/exponent
pair. -/
def parseNumber (cs : List Char) : Option ((Int × Int) × List Char) :=
  let (neg, cs1) := match cs with
    | '-' :: rest => (true, rest)
    | _ => (false, cs)
  let intPart : Option (List Char × List Char) :=
    match cs1 with
    | '0' :: rest => some (['0'], rest)
    | c :: _ =>
      if c.isDigit then
        let (ds, rest) := takeDigits cs1
        some (ds, rest)
      else none
    | [] => none
  match intPart with
  | none => none
  | some (ids, cs2) =>
    let fracPart : Option (List Char × List Char) :=
      match cs2 with
      | '.' :: rest =>
        let (ds, rest2) := takeDigits rest
        if ds.isEmpty then none else some (ds, rest2)
      | _ => some ([], cs2)
    match fracPart with
    | none => none
    | some (fds, cs3) =>
      let expPart : Option (Option (Bool × List Char) × List Char) :=
        match cs3 with
        | c :: rest =>
          if c = 'e' ∨ c = 'E' then
            let (eneg, rest2) := match rest with
              | '+' :: r => (false, r)
              | '-' :: r => (true, r)
              | _ => (false, rest)
            let (ds, rest3) := takeDigits rest2
            if ds.isEmpty then none else some (some (eneg, ds), rest3)
          else some (none, cs3)
        | [] => some (none, cs3)
      match expPart with
      | none => none
      | some (eopt, cs4) =>
        let mantissa : Int := (digitsToNat (ids ++ fds) : Int)
        let exp10 : Int :=
          (match eopt with
            | none => 0
            | some (eneg, eds) =>
              if eneg then -(digitsToNat eds : Int)
              else (digitsToNat eds : Int)) - (fds.length : Int)
        some (((if neg then -mantissa else mantissa), exp10), cs4)

mutual

/-- Parse one JSON value. -/
def parseValue (fuel : Nat) (cs : List Char) : Option (Json × List Char) :=
  match fuel with
  | 0 => none
  | fuel + 1 =>
    match jws cs with
    | 'n' :: 'u' :: 'l' :: 'l' :: rest => some (.null, rest)
    | 't' :: 'r' :: 'u' :: 'e' :: rest => some (.bool true, rest)
    | 'f' :: 'a' :: 'l' :: 's' :: 'e' :: rest => some (.bool false, rest)
    | 'N' :: 'a' :: 'N' :: rest => some (.nan, rest)
    | 'I' :: 'n' :: 'f' :: 'i' :: 'n' :: 'i' :: 't' :: 'y' :: rest =>
        some (.inf false, rest)
    | '-' :: 'I' :: 'n' :: 'f' :: 'i' :: 'n' :: 'i' :: 't' :: 'y' :: rest =>
        some (.inf true, rest)
    | '"' :: rest =>
      match parseStringBody rest.length.succ rest with
      | some (body, rem) => some (.str (String.mk body), rem)
      | none => none
    | '[' :: rest => parseArray fuel (jws rest)
    | c :: rest =>
      if c = lbraceC then parseObject fuel (jws rest)
      else
        match parseNumber (c :: rest) with
        | some ((n, e), rem) => some (.num n e, rem)
        | none => none
    | [] => none

/-- Parse the inside of an array, after the opening bracket and leading
whitespace. -/
def parseArray (fuel : Nat) (cs : List Char) : Option (Json × List Char) :=
  match fuel with
  | 0 => none
  | fuel + 1 =>
    match cs with
    | ']' :: rest => some (.arr [], rest)
    | _ =>
      match parseValue fuel cs with
      | some (v, rem) => parseArrayTail fuel [v] (jws rem)
      | none => none

/-- Parse the continuation of an array after at least one element. -/
def parseArrayTail (fuel : Nat) (acc : List Json) (cs : List Char) :
    Option (Json × List Char) :=
  match fuel with
  | 0 => none
  | fuel + 1 =>
    match cs with
    | ']' :: rest => some (.arr acc.reverse, rest)
    | ',' :: rest =>
      match parseValue fuel (jws rest) with
      | some (v, rem) => parseArrayTail fuel (v :: acc) (jws rem)
      | none => none
    | _ => none

/-- Parse the inside of an object, after the opening brace and leading
whitespace. -/
def parseObject (fuel : Nat) (cs : List Char) : Option (Json × List Char) :=
  match fuel with
  | 0 => none
  | fuel + 1 =>
    match cs with
    | c :: rest =>
      if c = rbraceC then some (.obj [], rest)
      else if c = '"' then
        match parseStringBody rest.length.succ rest with
        | some (key, rem) =>
          match jws rem with
          | ':' :: rem2 =>
            match parseValue fuel (jws rem2) with
            | some (v, rem3) =>
                parseObjectTail fuel (dictInsert [] (String.mk key) v) (jws rem3)
            | none => none
          | _ => none
        | none => none
      else none
    | [] => none

/-- Parse the continuation of an object after at least one entry. -/
def parseObjectTail (fuel : Nat) (acc : List (String × Json))
    (cs : List Char) : Option (Json × List Char) :=
  match fuel with
  | 0 => none
  | fuel + 1 =>
    match cs with
    | c :: rest =>
      if c = rbraceC then some (.obj acc, rest)
      else if c = ',' then
        match jws rest with
        | '"' :: rest2 =>
          match parseStringBody rest2.length.succ rest2 with
          | some (key, rem) =>
            match jws rem with
            | ':' :: rem2 =>
              match parseValue fuel (jws rem2) with
              | some (v, rem3) =>
                  parseObjectTail fuel (dictInsert acc (String.mk key) v) (jws rem3)
              | none => none
            | _ => none
          | none => none
        | _ => none
      else none
    | [] => none

end

/-- Model of Python json.loads on a whole document: parse one value
surrounded by optional whitespace; any other input raises, which the
callers in this codebase turn into their fallback branch, so the raising
outcome is rendered as none. -/
def json_loads (s : String) : Option Json :=
  match parseValue (s.toList.length.succ.succ) s.toList with
  | some (j, rest) => if jws rest = [] then some j else none
  | none => none

/-! ## PR number extraction

re.search of the pattern (?:#|PR\s*)(\d+) with IGNORECASE: scan positions
left to right; at a position, either a hash sign followed directly by
digits, or the two letters P R in any case, then optional whitespace, then
digits; the first matching position wins and its maximal digit run is the
number. -/

/-- Attempt the pattern at the current position, returning the digit run. -/
def matchPRHere (cs : List Char) : Option (List Char) :=
  match cs with
  | '#' :: rest =>
    let ds := (takeDigits rest).1
    if ds.isEmpty then none else some ds
  | c1 :: c2 :: rest =>
    if (c1 = 'P' || c1 = 'p') && (c2 = 'R' || c2 = 'r') then
      let ds := (takeDigits (rest.dropWhile isPyWs)).1
      if ds.isEmpty then none else some ds
    else none
  | _ => none

/-- Leftmost match of the PR-number pattern. -/
def searchPRNumber : List Char → Option Nat
  | [] => none
  | c :: rest =>
    match matchPRHere (c :: rest) with
    | some ds => some (digitsToNat ds)
    | none => searchPRNumber rest

/-- _extract_pr_number: the integer from the first occurrence of
number-sign-digits or PR-digits in the prompt; raises ValueError when the
pattern is absent. -/
def extract_pr_number (user_prompt : String) : Except Unit Nat :=
  match searchPRNumber user_prompt.toList with
  | some n => .ok n
  | none => .error ()

/-! ## Workflow state, observability records and oracles -/

/-- One recorded external tool call: the tool name and the arguments that
the code places in the args dict.  The posting entry carries only the PR
number and the payload length, by construction. -/
inductive ToolArgs where
  | prDetails (pr_number : Nat) : ToolArgs
  | commitDetails (commit_sha : String) : ToolArgs
  | fileContents (file_path : Json) (ref : String) : ToolArgs
  | postReview (pr_number : Nat) (body_len : Nat) : ToolArgs

/-- An entry of state.tool_calls. -/
structure ToolCall where
  tool : String
  args : ToolArgs

/-- An entry of state.events. -/
inductive Event where
  | agent (name : String) : Event
  | tool_call (tool : String) : Event
  | output (content : Json) : Event

/-- The shared PRReviewState TypedDict (total=False): optional keys are
Option-valued; keys that the language model populates can hold any decoded
JSON value, exactly as in the Python dict. -/
structure PRReviewState where
  repo_url : String
  github_token : Option String := none
  user_prompt : String
  pr_number : Option Nat := none
  gathered_contexts : Option String := none
  review_comment : Option Json := none
  final_review_comment : Option Json := none
  review_ok : Option Bool := none
  revision_notes : Option Json := none
  needs_more_context : Option Bool := none
  requested_files : Option Json := none
  reviewer_attempts : Option Nat := none
  force_commentor_final : Option Bool := none
  tool_calls : List ToolCall := []
  events : List Event := []

/-- _init_obs: setdefault of tool_calls, events (modelled as plain lists)
and reviewer_attempts (absent becomes 0, present is kept). -/
def init_obs (st : PRReviewState) : PRReviewState :=
  { st with reviewer_attempts := some (st.reviewer_attempts.getD 0) }

/-- _log_agent. -/
def log_agent (st : PRReviewState) (name : String) : PRReviewState :=
  { st with events := st.events ++ [.agent name] }

/-- _log_tool: appends to tool_calls and events. -/
def log_tool (st : PRReviewState) (tool : String) (args : ToolArgs) :
    PRReviewState :=
  { st with tool_calls := st.tool_calls ++ [⟨tool, args⟩],
            events := st.events ++ [.tool_call tool] }

/-- _log_output. -/
def log_output (st : PRReviewState) (content : Json) : PRReviewState :=
  { st with events := st.events ++ [.output content] }

/-- The validated PRDetails record produced by get_pr_details_step. -/
structure PRDetailsData where
  author : String
  title : String
  body : String
  diff_url : String
  state : String
  head_sha : String
  commit_shas : List String

/-- The PRDetails model_dump dict, in declaration order. -/
def prDetailsJson (d : PRDetailsData) : Json :=
  .obj [("author", .str d.author), ("title", .str d.title),
        ("body", .str d.body), ("diff_url", .str d.diff_url),
        ("state", .str d.state), ("head_sha", .str d.head_sha),
        ("commit_shas", .arr (d.commit_shas.map .str))]

/-- One changed-file record from get_commit_details_step. -/
structure ChangedFile where
  filename : String
  status : String
  additions : Nat
  deletions : Nat
  changes : Nat
  patch : String

/-- The changed-file dict built in get_commit_details_step. -/
def changedFileJson (f : ChangedFile) : Json :=
  .obj [("filename", .str f.filename), ("status", .str f.status),
        ("additions", .num f.additions 0), ("deletions", .num f.deletions 0),
        ("changes", .num f.changes 0), ("patch", .str f.patch)]

/-- Oracle for the external calls of the context step: GitHubClient
construction, get_pr_details_step, get_commit_details_step per sha and
get_file_contents_step per requested path.  An error value means the call
raises. -/
structure ContextOracle where
  client_init : Except String Unit
  pr_details : Except String PRDetailsData
  commit_details : String → Except String (List ChangedFile)
  file_contents : Json → Except String String

/-- Exceptions that the context step can propagate. -/
inductive CtxErr where
  | valueError : CtxErr
  | ghError (msg : String) : CtxErr
  | typeError : CtxErr

/-! ## Graph nodes -/

/-- Python iteration over a value: lists yield elements, strings yield
one-character strings, dicts yield their keys; other values raise
TypeError. -/
def pyIter : Json → Except Unit (List Json)
  | .arr xs => .ok xs
  | .str s => .ok (s.toList.map (fun c => .str (String.singleton c)))
  | .obj kvs => .ok (kvs.map (fun kv => Json.str kv.1))
  | _ => .error ()

/-- pr_number = state.get("pr_number") or _extract_pr_number(...):
a present nonzero number is kept, otherwise the prompt is (re)scanned. -/
def resolve_pr_number (st : PRReviewState) : Except Unit Nat :=
  match st.pr_number with
  | some n => if n ≠ 0 then .ok n else extract_pr_number st.user_prompt
  | none => extract_pr_number st.user_prompt

/-- The commit-details loop: one tool-call log plus one fetch per sha,
extending the accumulated changed-file list; a fetch failure raises with
the state mutated so far. -/
def fetch_commits (o : ContextOracle) (st : PRReviewState)
    (shas : List String) (acc : List ChangedFile) :
    Except (CtxErr × PRReviewState) (PRReviewState × List ChangedFile) :=
  match shas with
  | [] => .ok (st, acc)
  | sha :: rest =>
    let st := log_tool st "get_commit_details_step" (.commitDetails sha)
    match o.commit_details sha with
    | .error e => .error (.ghError e, st)
    | .ok files => fetch_commits o st rest (acc ++ files)

/-- The requested-files loop: one tool-call log plus one fetch per path,
collecting the per-file text fragments. -/
def fetch_requested (o : ContextOracle) (head_sha : String)
    (st : PRReviewState) (paths : List Json) (acc : List String) :
    Except (CtxErr × PRReviewState) (PRReviewState × List String) :=
  match paths with
  | [] => .ok (st, acc)
  | p :: rest =>
    let st := log_tool st "get_file_contents_step" (.fileContents p head_sha)
    match o.file_contents p with
    | .error e => .error (.ghError e, st)
    | .ok content =>
        fetch_requested o head_sha st rest
          (acc ++ ["\n\n### File: " ++ pyStr p ++ "\n```text\n" ++ content
                    ++ "\n```"])

/-- context_node: resolve the PR number, fetch PR details, changed files
per commit and any requested files, store the aggregated text, then clear
needs_more_context and requested_files.  Any raise carries the state as
mutated up to that point; the client close in the finally block does not
touch the state. -/
def context_node (st0 : PRReviewState) (o : ContextOracle) :
    Except (CtxErr × PRReviewState) PRReviewState :=
  let st := log_agent (init_obs st0) "ContextAgent"
  match o.client_init with
  | .error e => .error (.ghError e, st)
  | .ok _ =>
    match resolve_pr_number st with
    | .error _ => .error (.valueError, st)
    | .ok pr_number =>
      let st := { st with pr_number := some pr_number }
      let st := log_tool st "get_pr_details_step" (.prDetails pr_number)
      match o.pr_details with
      | .error e => .error (.ghError e, st)
      | .ok prd =>
        match fetch_commits o st prd.commit_shas [] with
        | .error es => .error es
        | .ok (st, changed) =>
          let req : Json := pyOrJ st.requested_files (.arr [])
          match pyIter req with
          | .error _ => .error (.typeError, st)
          | .ok paths =>
            match fetch_requested o prd.head_sha st paths [] with
            | .error es => .error es
            | .ok (st, extra) =>
              let gathered :=
                "## PR Details\n" ++ pyRepr (prDetailsJson prd) ++
                "\n\n## Changed Files (from commits)\n" ++
                pyRepr (.arr (changed.map changedFileJson)) ++ "\n" ++
                String.join extra
              let st := { st with gathered_contexts := some gathered,
                                  needs_more_context := some false,
                                  requested_files := some (.arr []) }
              .ok (log_output st (.str "Context gathered."))

/-- COMMENTOR_AGENT_SYSTEM_PROMPT (app/prompts/prompts.py). -/
def COMMENTOR_AGENT_SYSTEM_PROMPT : String :=
  "You are the commentor agent that writes review comments for pull requests as a human reviewer would. \nEnsure to do the following for a thorough review: \n - Request for the PR details, changed files, and any other repo files you may need from the ContextAgent. \n - Once you have asked for all the needed information, write a good ~200-300 word review in markdown format detailing: \n    - What is good about the PR? \n    - Did the author follow ALL contribution rules? What is missing? \n    - Are there tests for new functionality? If there are new models, are there migrations for them? - use the diff to determine this. \n    - Are new endpoints documented? - use the diff to determine this. \n    - Which lines could be improved upon? Quote these lines and offer suggestions the author could implement. \n - If you need any additional details, you must hand off to the Context Agent. \n - You should directly address the author. So your comments should sound like: \n \"Thanks for fixing this. I think all places where we call quote should be fixed. Can you roll this fix out everywhere?\"\n - You must hand off to the ReviewAndPostingAgent once you are done drafting a review.\n"

/-- REVIEW_AND_POSTING_AGENT_SYSTEM_PROMPT (app/prompts/prompts.py). -/
def REVIEW_AND_POSTING_AGENT_SYSTEM_PROMPT : String :=
  "\nYou are the Review and Posting agent. You must use the CommentorAgent to create a review comment. \nOnce a review is generated, you need to run a final check and post it to GitHub.\n   - The review must: \n\n   - Be a ~200-300 word review in markdown format. \n\n   - Specify what is good about the PR: \n\n   - Did the author follow ALL contribution rules? What is missing? \n\n   - Are there notes on test availability for new functionality? If there are new models, are there migrations for them? \n\n   - Are there notes on whether new endpoints were documented? \n\n   - Are there suggestions on which lines could be improved upon? Are these lines quoted? \n\n If the review does not meet this criteria, you must ask the CommentorAgent to rewrite and address these concerns. \n\n When you are satisfied, post the review to GitHub. \n"

/-- The f-string prompt of commentor_node, with the revision notes
interpolated between fixed fragments. -/
def commentor_prompt (user_prompt gathered revision_notes : String) : String :=
  "\n" ++ COMMENTOR_AGENT_SYSTEM_PROMPT ++ "\n\nUSER REQUEST:\n"
    ++ user_prompt ++ "\n\nAVAILABLE CONTEXT:\n" ++ gathered
    ++ "\n\nREVISION NOTES FROM REVIEWER (if any):\n" ++ revision_notes
    ++ "\n\nTASK:\n1) If you need more repository files to write a correct review, output JSON:\n   \x7b\"action\":\"need_context\",\"requested_files\":[\"path/a.py\",\"path/b.md\"]\x7d\n2) Otherwise output JSON:\n   \x7b\"action\":\"draft\",\"review_comment\":\"...markdown 200-300 words...\"\x7d\n"

/-- The f-string prompt of reviewer_node. -/
def reviewer_prompt (draft : String) : String :=
  "\n" ++ REVIEW_AND_POSTING_AGENT_SYSTEM_PROMPT ++ "\n\nDRAFT REVIEW:\n"
    ++ draft
    ++ "\n\nOUTPUT STRICT JSON:\n- If OK:\n  \x7b\"ok\": true, \"final_review_comment\": \"...(maybe lightly edited)...\"\x7d\n- If NOT OK:\n  \x7b\"ok\": false, \"revision_notes\": \"what to fix конкретно по пунктам\"\x7d\n"

/-- The decoded model output of the draft step: json.loads result, or the
fallback draft dict when parsing raises. -/
def commentor_data (raw : String) : Json :=
  match json_loads raw with
  | some j => j
  | none => .obj [("action", .str "draft"), ("review_comment", .str raw)]

/-- Helper from app/steps/pipeline_steps.py. -/
def add_review_comment_to_pr_review_state (st : PRReviewState) (rc : Json) :
    PRReviewState :=
  { st with review_comment := some rc }

/-- Helper from app/steps/pipeline_steps.py. -/
def add_final_review_to_pr_review_state (st : PRReviewState) (fr : Json) :
    PRReviewState :=
  { st with final_review_comment := some fr }

/-- Does the decoded draft-step output select the need_context branch
(data.get("action") == "need_context")? -/
def requestsContext (data : Json) : Bool :=
  match jsonGet data "action" with
  | .ok (some (.str s)) => s = "need_context"
  | _ => false

/-- commentor_node: strip the pending revision notes (an AttributeError
when a truthy non-string is stored there), ask the model, decode with the
draft fallback, then either record a context request or store the draft;
under the escape flag the draft is promoted to final with review_ok true,
otherwise review_ok is set false. -/
def commentor_node (st0 : PRReviewState) (llm : String → String) :
    Except PRReviewState PRReviewState :=
  let st := log_agent (init_obs st0) "CommentorAgent"
  match pyStrip (pyOrJ st.revision_notes (.str "")) with
  | .error _ => .error st
  | .ok revision_notes =>
    let gathered := pyStripStr (st.gathered_contexts.getD "")
    let prompt := commentor_prompt st.user_prompt gathered revision_notes
    let raw := llm prompt
    let data := commentor_data raw
    match jsonGet data "action" with
    | .error _ => .error st
    | .ok _ =>
      if requestsContext data then
        match jsonGetD data "requested_files" (.arr []) with
        | .error _ => .error st
        | .ok files =>
          let st := { st with needs_more_context := some true,
                              requested_files := some files,
                              revision_notes := some (.str "") }
          .ok (log_output st (.str ("Needs more context: " ++ pyStr files)))
      else
        match jsonGetD data "review_comment" (.str "") with
        | .error _ => .error st
        | .ok review_comment =>
          let st := { st with review_comment := some review_comment }
          let st := add_review_comment_to_pr_review_state st review_comment
          if truthyOpt st.force_commentor_final then
            let st := { st with final_review_comment := some review_comment,
                                review_ok := some true }
            .ok (log_output st (.str "Force final: skipping reviewer"))
          else
            let st := { st with review_ok := some false }
            .ok (log_output st review_comment)

/-- The generic note stored when the gate model does not return JSON. -/
def reviewer_fallback_note : String :=
  "Output must be strict JSON and meet the review criteria (200-300 words, markdown, quoted lines, tests/docs/migrations notes)."

/-- The decoded model output of the gate step: json.loads result, or the
fallback rejection dict when parsing raises. -/
def reviewer_data (raw : String) : Json :=
  match json_loads raw with
  | some j => j
  | none => .obj [("ok", .bool false), ("revision_notes", .str reviewer_fallback_note)]

/-- Is the gate verdict an approval (data.get("ok") is True)? -/
def reviewerApproves (data : Json) : Bool :=
  match jsonGet data "ok" with
  | .ok (some (.bool b)) => b
  | _ => false

/-- reviewer_node: increment the attempt counter, strip the draft (an
AttributeError when a truthy non-string draft is stored), ask the model,
decode with the rejection fallback; approval stores the final text,
rejection stores the revision notes and, once the attempt counter has
reached 1, sets the escape flag. -/
def reviewer_node (st0 : PRReviewState) (llm : String → String) :
    Except PRReviewState PRReviewState :=
  let st := log_agent (init_obs st0) "ReviewAndPostingAgent"
  let st := { st with reviewer_attempts := some (st.reviewer_attempts.getD 0 + 1) }
  match pyStrip (pyOrJ st.review_comment (.str "")) with
  | .error _ => .error st
  | .ok draft =>
    let prompt := reviewer_prompt draft
    let raw := llm prompt
    let data := reviewer_data raw
    match jsonGet data "ok" with
    | .error _ => .error st
    | .ok _ =>
      if reviewerApproves data then
        match jsonGetD data "final_review_comment" (.str draft) with
        | .error _ => .error st
        | .ok final_text =>
          let st := { st with review_ok := some true }
          let st := { st with final_review_comment := some final_text }
          let st := add_final_review_to_pr_review_state st final_text
          .ok (log_output st final_text)
      else
        match jsonGetD data "revision_notes"
            (.str "Please rewrite to meet the criteria.") with
        | .error _ => .error st
        | .ok notes =>
          let st := { st with review_ok := some false,
                              revision_notes := some notes }
          let st := log_output st notes
          let st :=
            if st.reviewer_attempts.getD 0 ≥ 1 then
              { st with force_commentor_final := some true }
            else st
          .ok st

/-- Oracle for the external calls of the post step. -/
structure PostOracle where
  client_init : Except String Unit
  post_result : Except String Unit

/-- body = state.get("final_review_comment") or state.get("review_comment")
or "". -/
def post_body (st : PRReviewState) : Json :=
  pyOrJ st.final_review_comment (pyOrJ st.review_comment (.str ""))

/-- post_node.  The second component lists the publish invocations
actually issued to the GitHub client (PR number and body), recorded at the
moment client.post_pr_review is called; the tool-call log entry carries
only the PR number and len(body). -/
def post_node (st0 : PRReviewState) (o : PostOracle) :
    Except PRReviewState PRReviewState × List (Nat × Json) :=
  let st := log_agent (init_obs st0) "PostToGitHub"
  if !truthyOpt st.review_ok then
    (.ok (log_output st (.str "Skipped posting because review_ok=False")), [])
  else
    match o.client_init with
    | .error _ => (.error st, [])
    | .ok _ =>
      match st.pr_number with
      | none => (.error st, [])
      | some pr_number =>
        let body := post_body st
        match pyLen body with
        | .error _ => (.error st, [])
        | .ok body_len =>
          let st := log_tool st "post_review_comment"
              (.postReview pr_number body_len)
          match o.post_result with
          | .error _ => (.error st, [(pr_number, body)])
          | .ok _ =>
              (.ok (log_output st (.str "Posted to GitHub.")),
               [(pr_number, body)])

/-! ## Routing and the run-level transition system -/

/-- Targets of route_after_commentor. -/
inductive RouteC where
  | context : RouteC
  | reviewer : RouteC
  | post : RouteC

/-- route_after_commentor. -/
def route_after_commentor (st : PRReviewState) : RouteC :=
  if truthyOpt st.needs_more_context then .context
  else if truthyOpt st.force_commentor_final then .post
  else .reviewer

/-- Targets of route_after_reviewer. -/
inductive RouteR where
  | commentor : RouteR
  | post : RouteR

/-- route_after_reviewer. -/
def route_after_reviewer (st : PRReviewState) : RouteR :=
  if truthyOpt st.review_ok then .post else .commentor

/-- Graph positions: the four nodes plus the terminal END and a failure
position reached when a node raises (the run aborts). -/
inductive Node where
  | context : Node
  | commentor : Node
  | reviewer : Node
  | post : Node
  | finished : Node
  | failed : Node
deriving DecidableEq

/-- Conditional-edge target after the draft step. -/
def nodeOfRouteC : RouteC → Node
  | .context => .context
  | .reviewer => .reviewer
  | .post => .post

/-- Conditional-edge target after the gate step. -/
def nodeOfRouteR : RouteR → Node
  | .commentor => .commentor
  | .post => .post

/-- A configuration of a run: the current position and the state. -/
abbrev Config := Node × PRReviewState

/-- One super-step of the compiled graph: execute the node at the current
position with some oracle for its external calls, then follow the
(conditional) edge; a raising node aborts the run. -/
inductive Step : Config → Config → Prop where
  | ctxOk (st : PRReviewState) (o : ContextOracle) (st' : PRReviewState)
      (h : context_node st o = .ok st') :
      Step (.context, st) (.commentor, st')
  | ctxErr (st : PRReviewState) (o : ContextOracle) (e : CtxErr)
      (st' : PRReviewState) (h : context_node st o = .error (e, st')) :
      Step (.context, st) (.failed, st')
  | commOk (st : PRReviewState) (llm : String → String)
      (st' : PRReviewState) (n : Node) (h : commentor_node st llm = .ok st')
      (hn : nodeOfRouteC (route_after_commentor st') = n) :
      Step (.commentor, st) (n, st')
  | commErr (st : PRReviewState) (llm : String → String)
      (st' : PRReviewState) (h : commentor_node st llm = .error st') :
      Step (.commentor, st) (.failed, st')
  | revOk (st : PRReviewState) (llm : String → String)
      (st' : PRReviewState) (n : Node) (h : reviewer_node st llm = .ok st')
      (hn : nodeOfRouteR (route_after_reviewer st') = n) :
      Step (.reviewer, st) (n, st')
  | revErr (st : PRReviewState) (llm : String → String)
      (st' : PRReviewState) (h : reviewer_node st llm = .error st') :
      Step (.reviewer, st) (.failed, st')
  | postOk (st : PRReviewState) (o : PostOracle) (st' : PRReviewState)
      (pubs : List (Nat × Json)) (h : post_node st o = (.ok st', pubs)) :
      Step (.post, st) (.finished, st')
  | postErr (st : PRReviewState) (o : PostOracle) (st' : PRReviewState)
      (pubs : List (Nat × Json)) (h : post_node st o = (.error st', pubs)) :
      Step (.post, st) (.failed, st')

/-- The initial state of run_pr_review_workflow_langgraph. -/
def initState (repo_url : String) (github_token : Option String)
    (user_prompt : String) : PRReviewState :=
  { repo_url := repo_url, github_token := github_token,
    user_prompt := user_prompt, tool_calls := [], events := [] }

/-- The configurations a run with the given inputs can reach. -/
def Reachable (repo_url : String) (github_token : Option String)
    (user_prompt : String) (cfg : Config) : Prop :=
  Relation.ReflTransGen Step
    (Node.context, initState repo_url github_token user_prompt) cfg

/-! ## Behavioural lemmas about the individual nodes -/

/-- Two states that differ at most in the observability logs. -/
structure ObsOnly (st st' : PRReviewState) : Prop where
  repo_url : st'.repo_url = st.repo_url
  github_token : st'.github_token = st.github_token
  user_prompt : st'.user_prompt = st.user_prompt
  pr_number : st'.pr_number = st.pr_number
  gathered_contexts : st'.gathered_contexts = st.gathered_contexts
  review_comment : st'.review_comment = st.review_comment
  final_review_comment : st'.final_review_comment = st.final_review_comment
  review_ok : st'.review_ok = st.review_ok
  revision_notes : st'.revision_notes = st.revision_notes
  needs_more_context : st'.needs_more_context = st.needs_more_context
  requested_files : st'.requested_files = st.requested_files
  reviewer_attempts : st'.reviewer_attempts = st.reviewer_attempts
  force_commentor_final : st'.force_commentor_final = st.force_commentor_final

theorem ObsOnly.refl (st : PRReviewState) : ObsOnly st st :=
  ⟨rfl, rfl, rfl, rfl, rfl, rfl, rfl, rfl, rfl, rfl, rfl, rfl, rfl⟩

theorem ObsOnly.trans {a b c : PRReviewState} (h1 : ObsOnly a b)
    (h2 : ObsOnly b c) : ObsOnly a c := by
  refine ⟨?_, ?_, ?_, ?_, ?_, ?_, ?_, ?_, ?_, ?_, ?_, ?_, ?_⟩ <;>
    simp only [h2.repo_url, h2.github_token, h2.user_prompt, h2.pr_number,
      h2.gathered_contexts, h2.review_comment, h2.final_review_comment,
      h2.review_ok, h2.revision_notes, h2.needs_more_context,
      h2.requested_files, h2.reviewer_attempts, h2.force_commentor_final,
      h1.repo_url, h1.github_token, h1.user_prompt, h1.pr_number,
      h1.gathered_contexts, h1.review_comment, h1.final_review_comment,
      h1.review_ok, h1.revision_notes, h1.needs_more_context,
      h1.requested_files, h1.reviewer_attempts, h1.force_commentor_final]

theorem obsOnly_log_tool (st : PRReviewState) (t : String) (a : ToolArgs) :
    ObsOnly st (log_tool st t a) :=
  ⟨rfl, rfl, rfl, rfl, rfl, rfl, rfl, rfl, rfl, rfl, rfl, rfl, rfl⟩

theorem obsOnly_log_agent (st : PRReviewState) (n : String) :
    ObsOnly st (log_agent st n) :=
  ⟨rfl, rfl, rfl, rfl, rfl, rfl, rfl, rfl, rfl, rfl, rfl, rfl, rfl⟩

theorem obsOnly_log_output (st : PRReviewState) (c : Json) :
    ObsOnly st (log_output st c) :=
  ⟨rfl, rfl, rfl, rfl, rfl, rfl, rfl, rfl, rfl, rfl, rfl, rfl, rfl⟩

theorem fetch_commits_obs (o : ContextOracle) (shas : List String) :
    ∀ (st : PRReviewState) (acc : List ChangedFile),
      (∀ st' res, fetch_commits o st shas acc = .ok (st', res) → ObsOnly st st') ∧
      (∀ e st', fetch_commits o st shas acc = .error (e, st') → ObsOnly st st') := by
  induction shas with
  | nil =>
    intro st acc
    refine ⟨?_, ?_⟩
    · intro st' res h
      simp only [fetch_commits, Except.ok.injEq, Prod.mk.injEq] at h
      obtain ⟨h1, -⟩ := h
      exact h1 ▸ ObsOnly.refl st
    · intro e st' h
      simp only [fetch_commits] at h
      exact Except.noConfusion h
  | cons sha rest ih =>
    intro st acc
    have base := obsOnly_log_tool st "get_commit_details_step"
      (ToolArgs.commitDetails sha)
    refine ⟨?_, ?_⟩
    · intro st' res h
      simp only [fetch_commits] at h
      cases hcd : o.commit_details sha with
      | error e => rw [hcd] at h; simp at h
      | ok files =>
        rw [hcd] at h
        exact base.trans
          (((ih (log_tool st "get_commit_details_step"
            (ToolArgs.commitDetails sha)) (acc ++ files)).1) st' res h)
    · intro e st' h
      simp only [fetch_commits] at h
      cases hcd : o.commit_details sha with
      | error e2 =>
        rw [hcd] at h
        simp only [Except.error.injEq, Prod.mk.injEq] at h
        obtain ⟨-, h2⟩ := h
        exact h2 ▸ base
      | ok files =>
        rw [hcd] at h
        exact base.trans
          (((ih (log_tool st "get_commit_details_step"
            (ToolArgs.commitDetails sha)) (acc ++ files)).2) e st' h)

theorem fetch_requested_obs (o : ContextOracle) (hs : String)
    (paths : List Json) :
    ∀ (st : PRReviewState) (acc : List String),
      (∀ st' res, fetch_requested o hs st paths acc = .ok (st', res) →
        ObsOnly st st') ∧
      (∀ e st', fetch_requested o hs st paths acc = .error (e, st') →
        ObsOnly st st') := by
  induction paths with
  | nil =>
    intro st acc
    refine ⟨?_, ?_⟩
    · intro st' res h
      simp only [fetch_requested, Except.ok.injEq, Prod.mk.injEq] at h
      obtain ⟨h1, -⟩ := h
      exact h1 ▸ ObsOnly.refl st
    · intro e st' h
      simp only [fetch_requested] at h
      exact Except.noConfusion h
  | cons p rest ih =>
    intro st acc
    have base := obsOnly_log_tool st "get_file_contents_step"
      (ToolArgs.fileContents p hs)
    refine ⟨?_, ?_⟩
    · intro st' res h
      simp only [fetch_requested] at h
      cases hcd : o.file_contents p with
      | error e => rw [hcd] at h; simp at h
      | ok content =>
        rw [hcd] at h
        exact base.trans (((ih (log_tool st "get_file_contents_step"
          (ToolArgs.fileContents p hs)) _).1) st' res h)
    · intro e st' h
      simp only [fetch_requested] at h
      cases hcd : o.file_contents p with
      | error e2 =>
        rw [hcd] at h
        simp only [Except.error.injEq, Prod.mk.injEq] at h
        obtain ⟨-, h2⟩ := h
        exact h2 ▸ base
      | ok content =>
        rw [hcd] at h
        exact base.trans (((ih (log_tool st "get_file_contents_step"
          (ToolArgs.fileContents p hs)) _).2) e st' h)

theorem resolve_pr_number_log (st : PRReviewState) (n : String) :
    resolve_pr_number (log_agent (init_obs st) n) = resolve_pr_number st :=
  rfl

/-- Successful context step: the PR number is the resolved one, the
re-fetch request fields are cleared, and all reviewer-facing fields are
untouched. -/
theorem context_node_ok_spec (st : PRReviewState) (o : ContextOracle)
    (st' : PRReviewState) (h : context_node st o = .ok st') :
    (∃ n, resolve_pr_number st = .ok n ∧ st'.pr_number = some n) ∧
    st'.needs_more_context = some false ∧
    st'.requested_files = some (Json.arr []) ∧
    st'.user_prompt = st.user_prompt ∧
    st'.review_ok = st.review_ok ∧
    st'.final_review_comment = st.final_review_comment ∧
    st'.force_commentor_final = st.force_commentor_final ∧
    st'.review_comment = st.review_comment ∧
    st'.revision_notes = st.revision_notes ∧
    st'.reviewer_attempts = some (st.reviewer_attempts.getD 0) := by
  simp only [context_node] at h
  split at h
  · exact Except.noConfusion h
  · split at h
    · exact Except.noConfusion h
    · split at h
      · exact Except.noConfusion h
      · split at h
        · exact Except.noConfusion h
        · split at h
          · exact Except.noConfusion h
          · split at h
            · exact Except.noConfusion h
            · rename_i x5 u hci x4 n hres x3 prd hpd x2 stB changed hfc
                x1 paths hit x0 stC extra hfr
              have hAB := (fetch_commits_obs o prd.commit_shas _ []).1
                stB changed hfc
              have hBC := (fetch_requested_obs o prd.head_sha paths stB []).1
                stC extra hfr
              simp only [Except.ok.injEq] at h
              subst h
              refine ⟨⟨n, ?_, ?_⟩, rfl, rfl, ?_, ?_, ?_, ?_, ?_, ?_, ?_⟩
              · exact (resolve_pr_number_log st "ContextAgent") ▸ hres
              · exact hBC.pr_number.trans (hAB.pr_number.trans rfl)
              · exact hBC.user_prompt.trans (hAB.user_prompt.trans rfl)
              · exact hBC.review_ok.trans (hAB.review_ok.trans rfl)
              · exact hBC.final_review_comment.trans
                  (hAB.final_review_comment.trans rfl)
              · exact hBC.force_commentor_final.trans
                  (hAB.force_commentor_final.trans rfl)
              · exact hBC.review_comment.trans (hAB.review_comment.trans rfl)
              · exact hBC.revision_notes.trans (hAB.revision_notes.trans rfl)
              · exact hBC.reviewer_attempts.trans
                  (hAB.reviewer_attempts.trans rfl)

/-- Raising context step: the needs/requested fields (and the
reviewer-facing fields) are exactly as they were on entry; the PR number
is either untouched or already resolved. -/
theorem context_node_err_spec (st : PRReviewState) (o : ContextOracle)
    (e : CtxErr) (st' : PRReviewState)
    (h : context_node st o = .error (e, st')) :
    st'.needs_more_context = st.needs_more_context ∧
    st'.requested_files = st.requested_files ∧
    st'.user_prompt = st.user_prompt ∧
    st'.review_ok = st.review_ok ∧
    st'.final_review_comment = st.final_review_comment ∧
    st'.force_commentor_final = st.force_commentor_final ∧
    st'.review_comment = st.review_comment ∧
    st'.revision_notes = st.revision_notes ∧
    st'.reviewer_attempts = some (st.reviewer_attempts.getD 0) ∧
    (st'.pr_number = st.pr_number ∨
      ∃ n, resolve_pr_number st = .ok n ∧ st'.pr_number = some n) := by
  simp only [context_node] at h
  split at h
  · simp only [Except.error.injEq, Prod.mk.injEq] at h
    obtain ⟨-, h2⟩ := h
    subst h2
    exact ⟨rfl, rfl, rfl, rfl, rfl, rfl, rfl, rfl, rfl, Or.inl rfl⟩
  · split at h
    · simp only [Except.error.injEq, Prod.mk.injEq] at h
      obtain ⟨-, h2⟩ := h
      subst h2
      exact ⟨rfl, rfl, rfl, rfl, rfl, rfl, rfl, rfl, rfl, Or.inl rfl⟩
    · split at h
      · rename_i x5 u hci x4 n hres x3 e0 hpd
        simp only [Except.error.injEq, Prod.mk.injEq] at h
        obtain ⟨-, h2⟩ := h
        subst h2
        refine ⟨rfl, rfl, rfl, rfl, rfl, rfl, rfl, rfl, rfl,
          Or.inr ⟨n, (resolve_pr_number_log st "ContextAgent") ▸ hres, rfl⟩⟩
      · split at h
        · rename_i x5 u hci x4 n hres x3 prd hpd x2 es hfc
          obtain ⟨e2, stE⟩ := es
          simp only [Except.error.injEq, Prod.mk.injEq] at h
          obtain ⟨-, h2⟩ := h
          subst h2
          have hAE := (fetch_commits_obs o prd.commit_shas _ []).2
            e2 stE hfc
          exact ⟨hAE.needs_more_context.trans rfl,
            hAE.requested_files.trans rfl, hAE.user_prompt.trans rfl,
            hAE.review_ok.trans rfl, hAE.final_review_comment.trans rfl,
            hAE.force_commentor_final.trans rfl,
            hAE.review_comment.trans rfl, hAE.revision_notes.trans rfl,
            hAE.reviewer_attempts.trans rfl,
            Or.inr ⟨n, (resolve_pr_number_log st "ContextAgent") ▸ hres,
              hAE.pr_number.trans rfl⟩⟩
        · split at h
          · rename_i x5 u hci x4 n hres x3 prd hpd x2 stB changed hfc
              x1 e0 hit
            have hAB := (fetch_commits_obs o prd.commit_shas _ []).1
              stB changed hfc
            simp only [Except.error.injEq, Prod.mk.injEq] at h
            obtain ⟨-, h2⟩ := h
            subst h2
            exact ⟨hAB.needs_more_context.trans rfl,
              hAB.requested_files.trans rfl, hAB.user_prompt.trans rfl,
              hAB.review_ok.trans rfl, hAB.final_review_comment.trans rfl,
              hAB.force_commentor_final.trans rfl,
              hAB.review_comment.trans rfl, hAB.revision_notes.trans rfl,
              hAB.reviewer_attempts.trans rfl,
              Or.inr ⟨n, (resolve_pr_number_log st "ContextAgent") ▸ hres,
                hAB.pr_number.trans rfl⟩⟩
          · split at h
            · rename_i x5 u hci x4 n hres x3 prd hpd x2 stB changed hfc
                x1 paths hit x0 es hfr
              obtain ⟨e2, stE⟩ := es
              have hAB := (fetch_commits_obs o prd.commit_shas _ []).1
                stB changed hfc
              simp only [Except.error.injEq, Prod.mk.injEq] at h
              obtain ⟨-, h2⟩ := h
              subst h2
              have hBE := (fetch_requested_obs o prd.head_sha paths stB []).2
                e2 stE hfr
              have hAE := hAB.trans hBE
              exact ⟨hAE.needs_more_context.trans rfl,
                hAE.requested_files.trans rfl, hAE.user_prompt.trans rfl,
                hAE.review_ok.trans rfl, hAE.final_review_comment.trans rfl,
                hAE.force_commentor_final.trans rfl,
                hAE.review_comment.trans rfl, hAE.revision_notes.trans rfl,
                hAE.reviewer_attempts.trans rfl,
                Or.inr ⟨n, (resolve_pr_number_log st "ContextAgent") ▸ hres,
                  hAE.pr_number.trans rfl⟩⟩
            · exact Except.noConfusion h

/-- A raising draft step leaves every state field as it was on entry
(only the log/attempt bookkeeping of _init_obs and _log_agent ran). -/
theorem commentor_node_err_spec (st : PRReviewState) (llm : String → String)
    (st' : PRReviewState) (h : commentor_node st llm = .error st') :
    st'.user_prompt = st.user_prompt ∧
    st'.pr_number = st.pr_number ∧
    st'.gathered_contexts = st.gathered_contexts ∧
    st'.review_comment = st.review_comment ∧
    st'.final_review_comment = st.final_review_comment ∧
    st'.review_ok = st.review_ok ∧
    st'.revision_notes = st.revision_notes ∧
    st'.needs_more_context = st.needs_more_context ∧
    st'.requested_files = st.requested_files ∧
    st'.force_commentor_final = st.force_commentor_final ∧
    st'.reviewer_attempts = some (st.reviewer_attempts.getD 0) := by
  simp only [commentor_node] at h
  split at h
  · simp only [Except.error.injEq] at h
    subst h
    exact ⟨rfl, rfl, rfl, rfl, rfl, rfl, rfl, rfl, rfl, rfl, rfl⟩
  · split at h
    · simp only [Except.error.injEq] at h
      subst h
      exact ⟨rfl, rfl, rfl, rfl, rfl, rfl, rfl, rfl, rfl, rfl, rfl⟩
    · split at h
      · split at h
        · simp only [Except.error.injEq] at h
          subst h
          exact ⟨rfl, rfl, rfl, rfl, rfl, rfl, rfl, rfl, rfl, rfl, rfl⟩
        · exact Except.noConfusion h
      · split at h
        · simp only [Except.error.injEq] at h
          subst h
          exact ⟨rfl, rfl, rfl, rfl, rfl, rfl, rfl, rfl, rfl, rfl, rfl⟩
        · split at h <;> exact Except.noConfusion h

/-- Successful draft step: the common frame plus the two branches (context
request, or draft with or without the escape flag). -/
theorem commentor_node_ok_spec (st : PRReviewState) (llm : String → String)
    (st' : PRReviewState) (h : commentor_node st llm = .ok st') :
    st'.user_prompt = st.user_prompt ∧
    st'.pr_number = st.pr_number ∧
    st'.gathered_contexts = st.gathered_contexts ∧
    st'.force_commentor_final = st.force_commentor_final ∧
    st'.reviewer_attempts = some (st.reviewer_attempts.getD 0) ∧
    ∃ rn, pyStrip (pyOrJ st.revision_notes (Json.str "")) = .ok rn ∧
      (let data := commentor_data (llm (commentor_prompt st.user_prompt
        (pyStripStr (st.gathered_contexts.getD "")) rn))
      (requestsContext data = true ∧
        st'.needs_more_context = some true ∧
        (∃ files, jsonGetD data "requested_files" (Json.arr []) = .ok files ∧
          st'.requested_files = some files) ∧
        st'.revision_notes = some (Json.str "") ∧
        st'.review_comment = st.review_comment ∧
        st'.review_ok = st.review_ok ∧
        st'.final_review_comment = st.final_review_comment) ∨
      (requestsContext data = false ∧
        st'.needs_more_context = st.needs_more_context ∧
        st'.requested_files = st.requested_files ∧
        st'.revision_notes = st.revision_notes ∧
        ∃ rc, jsonGetD data "review_comment" (Json.str "") = .ok rc ∧
          st'.review_comment = some rc ∧
          ((truthyOpt st.force_commentor_final = true ∧
            st'.review_ok = some true ∧
            st'.final_review_comment = some rc) ∨
          (truthyOpt st.force_commentor_final = false ∧
            st'.review_ok = some false ∧
            st'.final_review_comment = st.final_review_comment)))) := by
  simp only [commentor_node] at h
  split at h
  · exact Except.noConfusion h
  · rename_i x1 rn hrn
    split at h
    · exact Except.noConfusion h
    · rename_i x2 act hact
      split at h
      · rename_i hreq
        split at h
        · exact Except.noConfusion h
        · rename_i x3 files hfiles
          simp only [Except.ok.injEq] at h
          subst h
          exact ⟨rfl, rfl, rfl, rfl, rfl, rn, hrn,
            Or.inl ⟨hreq, rfl, ⟨files, hfiles, rfl⟩, rfl, rfl, rfl, rfl⟩⟩
      · rename_i hreq
        split at h
        · exact Except.noConfusion h
        · rename_i x3 rc hrc
          split at h
          · rename_i hforce
            simp only [Except.ok.injEq] at h
            subst h
            exact ⟨rfl, rfl, rfl, rfl, rfl, rn, hrn,
              Or.inr ⟨Bool.of_not_eq_true hreq, rfl, rfl, rfl, rc, hrc, rfl,
                Or.inl ⟨hforce, rfl, rfl⟩⟩⟩
          · rename_i hforce
            simp only [Except.ok.injEq] at h
            subst h
            exact ⟨rfl, rfl, rfl, rfl, rfl, rn, hrn,
              Or.inr ⟨Bool.of_not_eq_true hreq, rfl, rfl, rfl, rc, hrc, rfl,
                Or.inr ⟨Bool.of_not_eq_true hforce, rfl, rfl⟩⟩⟩

/-- A raising gate step has already incremented the attempt counter and
leaves everything else as on entry. -/
theorem reviewer_node_err_spec (st : PRReviewState) (llm : String → String)
    (st' : PRReviewState) (h : reviewer_node st llm = .error st') :
    st'.user_prompt = st.user_prompt ∧
    st'.pr_number = st.pr_number ∧
    st'.gathered_contexts = st.gathered_contexts ∧
    st'.review_comment = st.review_comment ∧
    st'.final_review_comment = st.final_review_comment ∧
    st'.review_ok = st.review_ok ∧
    st'.revision_notes = st.revision_notes ∧
    st'.needs_more_context = st.needs_more_context ∧
    st'.requested_files = st.requested_files ∧
    st'.force_commentor_final = st.force_commentor_final ∧
    st'.reviewer_attempts = some (st.reviewer_attempts.getD 0 + 1) := by
  simp only [reviewer_node] at h
  split at h
  · simp only [Except.error.injEq] at h
    subst h
    exact ⟨rfl, rfl, rfl, rfl, rfl, rfl, rfl, rfl, rfl, rfl, rfl⟩
  · split at h
    · simp only [Except.error.injEq] at h
      subst h
      exact ⟨rfl, rfl, rfl, rfl, rfl, rfl, rfl, rfl, rfl, rfl, rfl⟩
    · split at h
      · split at h
        · simp only [Except.error.injEq] at h
          subst h
          exact ⟨rfl, rfl, rfl, rfl, rfl, rfl, rfl, rfl, rfl, rfl, rfl⟩
        · exact Except.noConfusion h
      · split at h
        · simp only [Except.error.injEq] at h
          subst h
          exact ⟨rfl, rfl, rfl, rfl, rfl, rfl, rfl, rfl, rfl, rfl, rfl⟩
        · split at h <;> exact Except.noConfusion h

/-- Successful gate step: the counter is incremented by exactly one;
approval stores a final text and sets review_ok, rejection stores revision
notes, clears review_ok and (the counter now being at the cap) sets the
escape flag. -/
theorem reviewer_node_ok_spec (st : PRReviewState) (llm : String → String)
    (st' : PRReviewState) (h : reviewer_node st llm = .ok st') :
    st'.user_prompt = st.user_prompt ∧
    st'.pr_number = st.pr_number ∧
    st'.gathered_contexts = st.gathered_contexts ∧
    st'.needs_more_context = st.needs_more_context ∧
    st'.requested_files = st.requested_files ∧
    st'.review_comment = st.review_comment ∧
    st'.reviewer_attempts = some (st.reviewer_attempts.getD 0 + 1) ∧
    ∃ draft, pyStrip (pyOrJ st.review_comment (Json.str "")) = .ok draft ∧
      (let data := reviewer_data (llm (reviewer_prompt draft))
      (reviewerApproves data = true ∧
        ∃ ft, jsonGetD data "final_review_comment" (Json.str draft) = .ok ft ∧
          st'.review_ok = some true ∧
          st'.final_review_comment = some ft ∧
          st'.revision_notes = st.revision_notes ∧
          st'.force_commentor_final = st.force_commentor_final) ∨
      (reviewerApproves data = false ∧
        ∃ notes, jsonGetD data "revision_notes"
            (Json.str "Please rewrite to meet the criteria.") = .ok notes ∧
          st'.review_ok = some false ∧
          st'.revision_notes = some notes ∧
          st'.final_review_comment = st.final_review_comment ∧
          st'.force_commentor_final = some true)) := by
  simp only [reviewer_node] at h
  split at h
  · exact Except.noConfusion h
  · rename_i x1 draft hdraft
    split at h
    · exact Except.noConfusion h
    · rename_i x2 okv hokv
      split at h
      · rename_i happ
        split at h
        · exact Except.noConfusion h
        · rename_i x3 ft hft
          simp only [Except.ok.injEq] at h
          subst h
          exact ⟨rfl, rfl, rfl, rfl, rfl, rfl, rfl, draft, hdraft,
            Or.inl ⟨happ, ft, hft, rfl, rfl, rfl, rfl⟩⟩
      · rename_i happ
        split at h
        · exact Except.noConfusion h
        · rename_i x3 notes hnotes
          split at h
          · rename_i hcap
            simp only [Except.ok.injEq] at h
            subst h
            exact ⟨rfl, rfl, rfl, rfl, rfl, rfl, rfl, draft, hdraft,
              Or.inr ⟨Bool.of_not_eq_true happ, notes, hnotes, rfl, rfl,
                rfl, rfl⟩⟩
          · rename_i hcap
            exact absurd (Nat.le_add_left 1 (st.reviewer_attempts.getD 0)) hcap

/-- Post step with a falsy approval flag: no publish invocation, a log-only
state change, and no exception. -/
theorem post_node_skip_spec (st : PRReviewState) (o : PostOracle)
    (hok : truthyOpt st.review_ok = false) :
    post_node st o =
      (.ok (log_output (log_agent (init_obs st) "PostToGitHub")
        (.str "Skipped posting because review_ok=False")), []) := by
  have hok2 : truthyOpt (log_agent (init_obs st) "PostToGitHub").review_ok
      = false := hok
  simp only [post_node, hok2, Bool.not_false, if_true]

/-- Whatever the oracle does, the post step never touches anything but the
observability logs, and any state it returns or raises with keeps every
other field. -/
theorem post_node_frame (st : PRReviewState) (o : PostOracle)
    (st' : PRReviewState)
    (h : (post_node st o).1 = .ok st' ∨ (post_node st o).1 = .error st') :
    st'.user_prompt = st.user_prompt ∧
    st'.pr_number = st.pr_number ∧
    st'.gathered_contexts = st.gathered_contexts ∧
    st'.review_comment = st.review_comment ∧
    st'.final_review_comment = st.final_review_comment ∧
    st'.review_ok = st.review_ok ∧
    st'.revision_notes = st.revision_notes ∧
    st'.needs_more_context = st.needs_more_context ∧
    st'.requested_files = st.requested_files ∧
    st'.force_commentor_final = st.force_commentor_final ∧
    st'.reviewer_attempts = some (st.reviewer_attempts.getD 0) := by
  rcases h with h | h <;>
  · simp only [post_node] at h
    split at h
    all_goals try split at h
    all_goals try split at h
    all_goals try split at h
    all_goals try split at h
    all_goals dsimp only at h
    all_goals
      first
        | exact Except.noConfusion h
        | (simp only [Except.ok.injEq, Except.error.injEq] at h; subst h;
           exact ⟨rfl, rfl, rfl, rfl, rfl, rfl, rfl, rfl, rfl, rfl, rfl⟩)

/-- A publish invocation is issued only under a truthy approval flag. -/
theorem post_node_pubs_sound (st : PRReviewState) (o : PostOracle)
    (h : (post_node st o).2 ≠ []) : truthyOpt st.review_ok = true := by
  by_contra hfalse
  have hok : truthyOpt st.review_ok = false := by
    cases hx : truthyOpt st.review_ok
    · rfl
    · exact absurd hx hfalse
  rw [post_node_skip_spec st o hok] at h
  exact h rfl

/-- Post step under a truthy approval flag with a constructible client and
a body whose length is defined: exactly one publish invocation carrying
the selected body, and the tool-call log records the PR number and the
body length. -/
theorem post_node_pub_spec (st : PRReviewState) (o : PostOracle) (pr : Nat)
    (L : Nat) (hok : truthyOpt st.review_ok = true)
    (hpr : st.pr_number = some pr) (hci : o.client_init = .ok ())
    (hL : pyLen (post_body st) = .ok L) :
    (post_node st o).2 = [(pr, post_body st)] ∧
    ∃ st', ((post_node st o).1 = .ok st' ∨ (post_node st o).1 = .error st') ∧
      st'.tool_calls = st.tool_calls ++
        [⟨"post_review_comment", .postReview pr L⟩] := by
  have hok2 : truthyOpt (log_agent (init_obs st) "PostToGitHub").review_ok
      = true := hok
  have hpr2 : (log_agent (init_obs st) "PostToGitHub").pr_number
      = some pr := hpr
  have hL2 : pyLen (post_body (log_agent (init_obs st) "PostToGitHub"))
      = .ok L := hL
  simp only [post_node, hok2, Bool.not_true, hci, hpr2, hL2,
    Bool.false_eq_true, if_false]
  cases hres : o.post_result with
  | error e => exact ⟨rfl, _, Or.inr rfl, rfl⟩
  | ok u => exact ⟨rfl, _, Or.inl rfl, rfl⟩

/-! ## Run-level invariants -/

/-- resolve_pr_number can only produce 0 by extraction from the prompt. -/
theorem resolve_pr_number_ok_zero (st : PRReviewState)
    (h : resolve_pr_number st = .ok 0) :
    extract_pr_number st.user_prompt = .ok 0 := by
  unfold resolve_pr_number at h
  cases hpn : st.pr_number with
  | none => rw [hpn] at h; exact h
  | some m =>
    rw [hpn] at h
    have h2 : (if m ≠ 0 then Except.ok m
        else extract_pr_number st.user_prompt) = Except.ok 0 := h
    by_cases hm : m ≠ 0
    · rw [if_pos hm] at h2
      simp only [Except.ok.injEq] at h2
      exact absurd h2 hm
    · rw [if_neg hm] at h2
      exact h2

/-- A present PR number is reproduced by resolution: a nonzero value is
kept verbatim, a zero re-runs the extraction. -/
theorem resolve_pr_number_some (st : PRReviewState) (k : Nat)
    (h : st.pr_number = some k) :
    (k ≠ 0 → resolve_pr_number st = .ok k) ∧
    (k = 0 → resolve_pr_number st = extract_pr_number st.user_prompt) := by
  constructor
  · intro hk
    unfold resolve_pr_number
    rw [h]
    show (if k ≠ 0 then Except.ok k
      else extract_pr_number st.user_prompt) = Except.ok k
    rw [if_pos hk]
  · intro hk
    unfold resolve_pr_number
    rw [h]
    show (if k ≠ 0 then Except.ok k
      else extract_pr_number st.user_prompt) = extract_pr_number st.user_prompt
    rw [if_neg (by simp [hk])]

/-- The inductive invariant of a run with the given prompt: the prompt is
never mutated; a zero PR number can only come from the prompt; the PR
number is present away from the entry node; the re-fetch flag is clear
whenever the draft or gate step is entered; a true verdict always has a
final text stored; and the post step is only entered with a truthy
verdict. -/
def Inv (up : String) (cfg : Config) : Prop :=
  cfg.2.user_prompt = up ∧
  (cfg.2.pr_number = some 0 → extract_pr_number up = .ok 0) ∧
  ((cfg.1 = Node.commentor ∨ cfg.1 = Node.reviewer ∨ cfg.1 = Node.post) →
    cfg.2.pr_number.isSome = true) ∧
  ((cfg.1 = Node.commentor ∨ cfg.1 = Node.reviewer) →
    cfg.2.needs_more_context = some false) ∧
  (cfg.2.review_ok = some true → cfg.2.final_review_comment.isSome = true) ∧
  (cfg.1 = Node.post → truthyOpt cfg.2.review_ok = true)

theorem inv_init (repo_url : String) (github_token : Option String)
    (user_prompt : String) :
    Inv user_prompt (Node.context, initState repo_url github_token user_prompt) := by
  refine ⟨rfl, ?_, ?_, ?_, ?_, ?_⟩ <;> intro h <;> simp_all [initState, Inv]

theorem step_inv {up : String} {c c' : Config} (hs : Step c c')
    (hi : Inv up c) : Inv up c' := by
  obtain ⟨iup, ipr0, iprs, ineeds, irok, ipost⟩ := hi
  cases hs with
  | ctxOk st o st' h =>
    obtain ⟨⟨n, hres, hpr⟩, hneeds, hreq, hup, hok, hfin, hforce, hrc, hrn,
      hatt⟩ := context_node_ok_spec st o st' h
    refine ⟨hup.trans iup, ?_, ?_, ?_, ?_, ?_⟩
    · intro h0
      rw [hpr] at h0
      simp only [Option.some.injEq] at h0
      subst h0
      exact iup ▸ resolve_pr_number_ok_zero st hres
    · intro _
      simp [hpr]
    · intro _
      exact hneeds
    · intro h0
      rw [hok] at h0
      rw [hfin]
      exact irok h0
    · intro h0
      exact absurd h0 (by simp)
  | ctxErr st o e st' h =>
    obtain ⟨hneeds, hreq, hup, hok, hfin, hforce, hrc, hrn, hatt, hpr⟩ :=
      context_node_err_spec st o e st' h
    refine ⟨hup.trans iup, ?_, ?_, ?_, ?_, ?_⟩
    · intro h0
      rcases hpr with hpr | ⟨n, hres, hpr⟩
      · exact ipr0 (hpr ▸ h0)
      · rw [hpr] at h0
        simp only [Option.some.injEq] at h0
        subst h0
        exact iup ▸ resolve_pr_number_ok_zero st hres
    · intro h0
      exact absurd h0 (by simp)
    · intro h0
      exact absurd h0 (by simp)
    · intro h0
      rw [hok] at h0
      rw [hfin]
      exact irok h0
    · intro h0
      exact absurd h0 (by simp)
  | commOk st llm st' n h hn =>
    obtain ⟨hup, hpr, hg, hforce, hatt, rn, hrn, hbr⟩ :=
      commentor_node_ok_spec st llm st' h
    have hprs : st'.pr_number.isSome = true := by
      rw [hpr]; exact iprs (Or.inl rfl)
    have hneeds0 : st.needs_more_context = some false :=
      ineeds (Or.inl rfl)
    rcases hbr with ⟨hreq, hneeds, ⟨files, hfiles, hreqf⟩, hrn2, hrc, hok,
        hfin⟩ | ⟨hreq, hneeds, hreqf, hrn2, rc, hrc, hrcset, hbr2⟩
    · -- need_context branch: routed back to the context node
      have hroute : route_after_commentor st' = RouteC.context := by
        unfold route_after_commentor
        rw [hneeds]
        simp [truthyOpt]
      rw [hroute] at hn
      subst hn
      refine ⟨hup.trans iup, ?_, ?_, ?_, ?_, ?_⟩
      · intro h0
        exact ipr0 (hpr ▸ h0)
      · intro h0
        simp [nodeOfRouteC, nodeOfRouteR] at h0
      · intro h0
        simp [nodeOfRouteC, nodeOfRouteR] at h0
      · intro h0
        rw [hok] at h0
        rw [hfin]
        exact irok h0
      · intro h0
        simp [nodeOfRouteC, nodeOfRouteR] at h0
    · -- draft branch
      rcases hbr2 with ⟨hforceT, hokT, hfinT⟩ | ⟨hforceF, hokF, hfinF⟩
      · -- escape flag set: forced final, routed to post
        have hroute : route_after_commentor st' = RouteC.post := by
          unfold route_after_commentor
          rw [hneeds, hneeds0, hforce, hforceT]
          simp [truthyOpt]
        rw [hroute] at hn
        subst hn
        refine ⟨hup.trans iup, ?_, ?_, ?_, ?_, ?_⟩
        · intro h0
          exact ipr0 (hpr ▸ h0)
        · intro _
          exact hprs
        · intro h0
          simp [nodeOfRouteC, nodeOfRouteR] at h0
        · intro _
          rw [hfinT]
          rfl
        · intro _
          rw [hokT]
          rfl
      · -- fresh draft: routed to the gate
        have hroute : route_after_commentor st' = RouteC.reviewer := by
          unfold route_after_commentor
          rw [hneeds, hneeds0, hforce, hforceF]
          simp [truthyOpt]
        rw [hroute] at hn
        subst hn
        refine ⟨hup.trans iup, ?_, ?_, ?_, ?_, ?_⟩
        · intro h0
          exact ipr0 (hpr ▸ h0)
        · intro _
          exact hprs
        · intro _
          rw [hneeds]
          exact hneeds0
        · intro h0
          rw [hokF] at h0
          simp [nodeOfRouteC, nodeOfRouteR] at h0
        · intro h0
          simp [nodeOfRouteC, nodeOfRouteR] at h0
  | commErr st llm st' h =>
    obtain ⟨hup, hpr, hg, hrc, hfin, hok, hrn, hneeds, hreq, hforce, hatt⟩ :=
      commentor_node_err_spec st llm st' h
    refine ⟨hup.trans iup, ?_, ?_, ?_, ?_, ?_⟩
    · intro h0
      exact ipr0 (hpr ▸ h0)
    · intro h0
      simp [nodeOfRouteC, nodeOfRouteR] at h0
    · intro h0
      simp [nodeOfRouteC, nodeOfRouteR] at h0
    · intro h0
      rw [hok] at h0
      rw [hfin]
      exact irok h0
    · intro h0
      simp [nodeOfRouteC, nodeOfRouteR] at h0
  | revOk st llm st' n h hn =>
    obtain ⟨hup, hpr, hg, hneeds, hreq, hrc, hatt, draft, hdraft, hbr⟩ :=
      reviewer_node_ok_spec st llm st' h
    have hprs : st'.pr_number.isSome = true := by
      rw [hpr]; exact iprs (Or.inr (Or.inl rfl))
    have hneeds0 : st.needs_more_context = some false :=
      ineeds (Or.inr rfl)
    rcases hbr with ⟨happ, ft, hft, hokT, hfinT, hrn2, hforce⟩ |
        ⟨happ, notes, hnotes, hokF, hrn2, hfinF, hforce⟩
    · -- approval: routed to post
      have hroute : route_after_reviewer st' = RouteR.post := by
        unfold route_after_reviewer
        rw [hokT]
        simp [truthyOpt]
      rw [hroute] at hn
      subst hn
      refine ⟨hup.trans iup, ?_, ?_, ?_, ?_, ?_⟩
      · intro h0
        exact ipr0 (hpr ▸ h0)
      · intro _
        exact hprs
      · intro h0
        simp [nodeOfRouteC, nodeOfRouteR] at h0
      · intro _
        rw [hfinT]
        rfl
      · intro _
        rw [hokT]
        rfl
    · -- rejection: routed back to the draft step
      have hroute : route_after_reviewer st' = RouteR.commentor := by
        unfold route_after_reviewer
        rw [hokF]
        simp [truthyOpt]
      rw [hroute] at hn
      subst hn
      refine ⟨hup.trans iup, ?_, ?_, ?_, ?_, ?_⟩
      · intro h0
        exact ipr0 (hpr ▸ h0)
      · intro _
        exact hprs
      · intro _
        rw [hneeds]
        exact hneeds0
      · intro h0
        rw [hokF] at h0
        simp [nodeOfRouteC, nodeOfRouteR] at h0
      · intro h0
        simp [nodeOfRouteC, nodeOfRouteR] at h0
  | revErr st llm st' h =>
    obtain ⟨hup, hpr, hg, hrc, hfin, hok, hrn, hneeds, hreq, hforce, hatt⟩ :=
      reviewer_node_err_spec st llm st' h
    refine ⟨hup.trans iup, ?_, ?_, ?_, ?_, ?_⟩
    · intro h0
      exact ipr0 (hpr ▸ h0)
    · intro h0
      simp [nodeOfRouteC, nodeOfRouteR] at h0
    · intro h0
      simp [nodeOfRouteC, nodeOfRouteR] at h0
    · intro h0
      rw [hok] at h0
      rw [hfin]
      exact irok h0
    · intro h0
      simp [nodeOfRouteC, nodeOfRouteR] at h0
  | postOk st o st' pubs h =>
    have hfr := post_node_frame st o st' (Or.inl (by rw [h]))
    obtain ⟨hup, hpr, hg, hrc, hfin, hok, hrn, hneeds, hreq, hforce, hatt⟩ := hfr
    refine ⟨hup.trans iup, ?_, ?_, ?_, ?_, ?_⟩
    · intro h0
      exact ipr0 (hpr ▸ h0)
    · intro h0
      simp [nodeOfRouteC, nodeOfRouteR] at h0
    · intro h0
      simp [nodeOfRouteC, nodeOfRouteR] at h0
    · intro h0
      rw [hok] at h0
      rw [hfin]
      exact irok h0
    · intro h0
      simp [nodeOfRouteC, nodeOfRouteR] at h0
  | postErr st o st' pubs h =>
    have hfr := post_node_frame st o st' (Or.inr (by rw [h]))
    obtain ⟨hup, hpr, hg, hrc, hfin, hok, hrn, hneeds, hreq, hforce, hatt⟩ := hfr
    refine ⟨hup.trans iup, ?_, ?_, ?_, ?_, ?_⟩
    · intro h0
      exact ipr0 (hpr ▸ h0)
    · intro h0
      simp [nodeOfRouteC, nodeOfRouteR] at h0
    · intro h0
      simp [nodeOfRouteC, nodeOfRouteR] at h0
    · intro h0
      rw [hok] at h0
      rw [hfin]
      exact irok h0
    · intro h0
      simp [nodeOfRouteC, nodeOfRouteR] at h0

theorem inv_of_reachable {repo_url : String} {github_token : Option String}
    {user_prompt : String} {cfg : Config}
    (h : Reachable repo_url github_token user_prompt cfg) :
    Inv user_prompt cfg := by
  induction h with
  | refl => exact inv_init repo_url github_token user_prompt
  | tail h1 h2 ih => exact step_inv h2 ih

/-- No step decreases the attempt counter. -/
theorem step_attempts_mono {c c' : Config} (hs : Step c c') :
    c.2.reviewer_attempts.getD 0 ≤ c'.2.reviewer_attempts.getD 0 := by
  cases hs with
  | ctxOk st o st' h =>
    have := (context_node_ok_spec st o st' h).2.2.2.2.2.2.2.2.2
    simp [this]
  | ctxErr st o e st' h =>
    have := (context_node_err_spec st o e st' h).2.2.2.2.2.2.2.2.1
    simp [this]
  | commOk st llm st' n h hn =>
    have := (commentor_node_ok_spec st llm st' h).2.2.2.2.1
    simp [this]
  | commErr st llm st' h =>
    have := (commentor_node_err_spec st llm st' h).2.2.2.2.2.2.2.2.2.2
    simp [this]
  | revOk st llm st' n h hn =>
    have := (reviewer_node_ok_spec st llm st' h).2.2.2.2.2.2.1
    simp [this]
  | revErr st llm st' h =>
    have := (reviewer_node_err_spec st llm st' h).2.2.2.2.2.2.2.2.2.2
    simp [this]
  | postOk st o st' pubs h =>
    have := (post_node_frame st o st' (Or.inl (by rw [h]))).2.2.2.2.2.2.2.2.2.2
    simp [this]
  | postErr st o st' pubs h =>
    have := (post_node_frame st o st' (Or.inr (by rw [h]))).2.2.2.2.2.2.2.2.2.2
    simp [this]

/-- No step clears the escape flag. -/
theorem step_force_mono {c c' : Config} (hs : Step c c')
    (hf : c.2.force_commentor_final = some true) :
    c'.2.force_commentor_final = some true := by
  cases hs with
  | ctxOk st o st' h =>
    exact ((context_node_ok_spec st o st' h).2.2.2.2.2.2.1).trans hf
  | ctxErr st o e st' h =>
    exact ((context_node_err_spec st o e st' h).2.2.2.2.2.1).trans hf
  | commOk st llm st' n h hn =>
    exact ((commentor_node_ok_spec st llm st' h).2.2.2.1).trans hf
  | commErr st llm st' h =>
    exact ((commentor_node_err_spec st llm st' h).2.2.2.2.2.2.2.2.2.1).trans hf
  | revOk st llm st' n h hn =>
    obtain ⟨-, -, -, -, -, -, -, draft, -, hbr⟩ :=
      reviewer_node_ok_spec st llm st' h
    rcases hbr with ⟨-, ft, -, -, -, -, hforce⟩ | ⟨-, notes, -, -, -, -, hforce⟩
    · exact hforce.trans hf
    · exact hforce
  | revErr st llm st' h =>
    exact ((reviewer_node_err_spec st llm st' h).2.2.2.2.2.2.2.2.2.1).trans hf
  | postOk st o st' pubs h =>
    exact ((post_node_frame st o st' (Or.inl (by rw [h]))).2.2.2.2.2.2.2.2.2.1).trans hf
  | postErr st o st' pubs h =>
    exact ((post_node_frame st o st' (Or.inr (by rw [h]))).2.2.2.2.2.2.2.2.2.1).trans hf

/-- Once resolved, the PR number is preserved by every step (a zero value
is re-extracted from the unchanged prompt, reproducing itself). -/
theorem step_pr_stable {up : String} {c c' : Config} (hs : Step c c')
    (hi : Inv up c) {k : Nat} (hk : c.2.pr_number = some k) :
    c'.2.pr_number = some k := by
  obtain ⟨iup, ipr0, -, -, -, -⟩ := hi
  cases hs with
  | ctxOk st o st' h =>
    obtain ⟨⟨n, hres, hpr⟩, -⟩ := context_node_ok_spec st o st' h
    by_cases hk0 : k = 0
    · subst hk0
      have hres2 : resolve_pr_number st = extract_pr_number st.user_prompt :=
        (resolve_pr_number_some st 0 hk).2 rfl
      have hx : extract_pr_number st.user_prompt = .ok 0 := iup ▸ ipr0 hk
      rw [hres2, hx] at hres
      simp only [Except.ok.injEq] at hres
      rw [hpr, hres]
    · have hres2 : resolve_pr_number st = .ok k :=
        (resolve_pr_number_some st k hk).1 hk0
      rw [hres2] at hres
      simp only [Except.ok.injEq] at hres
      rw [hpr, hres]
  | ctxErr st o e st' h =>
    obtain ⟨-, -, -, -, -, -, -, -, -, hpr⟩ := context_node_err_spec st o e st' h
    rcases hpr with hpr | ⟨n, hres, hpr⟩
    · rw [hpr]; exact hk
    · by_cases hk0 : k = 0
      · subst hk0
        have hres2 : resolve_pr_number st = extract_pr_number st.user_prompt :=
          (resolve_pr_number_some st 0 hk).2 rfl
        have hx : extract_pr_number st.user_prompt = .ok 0 := iup ▸ ipr0 hk
        rw [hres2, hx] at hres
        simp only [Except.ok.injEq] at hres
        rw [hpr, hres]
      · have hres2 : resolve_pr_number st = .ok k :=
          (resolve_pr_number_some st k hk).1 hk0
        rw [hres2] at hres
        simp only [Except.ok.injEq] at hres
        rw [hpr, hres]
  | commOk st llm st' n h hn =>
    exact ((commentor_node_ok_spec st llm st' h).2.1).trans hk
  | commErr st llm st' h =>
    exact ((commentor_node_err_spec st llm st' h).2.1).trans hk
  | revOk st llm st' n h hn =>
    exact ((reviewer_node_ok_spec st llm st' h).2.1).trans hk
  | revErr st llm st' h =>
    exact ((reviewer_node_err_spec st llm st' h).2.1).trans hk
  | postOk st o st' pubs h =>
    exact ((post_node_frame st o st' (Or.inl (by rw [h]))).2.1).trans hk
  | postErr st o st' pubs h =>
    exact ((post_node_frame st o st' (Or.inr (by rw [h]))).2.1).trans hk

/-- Once the escape flag is true it stays true for the rest of the run. -/
theorem force_persist {c c' : Config}
    (h : Relation.ReflTransGen Step c c')
    (hf : c.2.force_commentor_final = some true) :
    c'.2.force_commentor_final = some true := by
  induction h with
  | refl => exact hf
  | tail h1 h2 ih => exact step_force_mono h2 ih

/-- The attempt counter never decreases along a run. -/
theorem attempts_mono_rtg {c c' : Config}
    (h : Relation.ReflTransGen Step c c') :
    c.2.reviewer_attempts.getD 0 ≤ c'.2.reviewer_attempts.getD 0 := by
  induction h with
  | refl => exact Nat.le.refl
  | tail h1 h2 ih => exact ih.trans (step_attempts_mono h2)

/-- The invariant travels along the rest of a run together with a resolved
PR number, which never changes. -/
theorem inv_pr_stable_rtg {up : String} {c c' : Config}
    (h : Relation.ReflTransGen Step c c') (hi : Inv up c) {k : Nat}
    (hk : c.2.pr_number = some k) :
    Inv up c' ∧ c'.2.pr_number = some k := by
  induction h with
  | refl => exact ⟨hi, hk⟩
  | tail h1 h2 ih => exact ⟨step_inv h2 ih.1, step_pr_stable h2 ih.1 ih.2⟩

/-- A failed run is over: no step leaves the failure position. -/
theorem failed_no_step (st : PRReviewState) (cfg : Config) :
    ¬ Step (Node.failed, st) cfg := by
  intro h
  cases h

/-! ## Concrete runs used as witnesses and counterexamples -/

def exRepo : String := "https://github.com/Eldoggy01/recipes-api.git"

def exPrompt : String := "Please review PR #42"

def exDetails : PRDetailsData :=
  { author := "alice", title := "T", body := "B", diff_url := "u",
    state := "open", head_sha := "h", commit_shas := [] }

/-- A context oracle whose external fetches all succeed. -/
def exCtxO : ContextOracle :=
  { client_init := .ok (), pr_details := .ok exDetails,
    commit_details := fun _ => .ok [], file_contents := fun _ => .ok "" }

/-- A context oracle whose PR-details fetch raises. -/
def exCtxOFail : ContextOracle :=
  { client_init := .ok (), pr_details := .error "boom",
    commit_details := fun _ => .ok [], file_contents := fun _ => .ok "" }

def exInit : PRReviewState := initState exRepo none exPrompt

/-- The state of a context-step outcome (the raise carries the state). -/
def stateOfCtx : Except (CtxErr × PRReviewState) PRReviewState →
    PRReviewState
  | .ok st => st
  | .error (_, st) => st

/-- The state of a draft/gate-step outcome. -/
def stateOfN : Except PRReviewState PRReviewState → PRReviewState
  | .ok st => st
  | .error st => st

def exS1 : PRReviewState := stateOfCtx (context_node exInit exCtxO)

/-- A model that always answers with a draft. -/
def llmDraftHello : String → String :=
  fun _ => "\x7b\"action\": \"draft\", \"review_comment\": \"hello\"\x7d"

def exS2 : PRReviewState := stateOfN (commentor_node exS1 llmDraftHello)

/-- A gate model that approves without supplying a final text. -/
def llmApprove : String → String := fun _ => "\x7b\"ok\": true\x7d"

def exS3 : PRReviewState := stateOfN (reviewer_node exS2 llmApprove)

/-- A gate model that rejects with concrete revision notes. -/
def llmReject : String → String :=
  fun _ => "\x7b\"ok\": false, \"revision_notes\": \"fix X\"\x7d"

def exB3 : PRReviewState := stateOfN (reviewer_node exS2 llmReject)

/-- A gate model that approves with a non-string final text. -/
def llmApproveNum : String → String :=
  fun _ => "\x7b\"ok\": true, \"final_review_comment\": 5\x7d"

def exC3 : PRReviewState := stateOfN (reviewer_node exS2 llmApproveNum)

/-- A gate model that approves with an empty final text. -/
def llmApproveEmpty : String → String :=
  fun _ => "\x7b\"ok\": true, \"final_review_comment\": \"\"\x7d"

def exD3 : PRReviewState := stateOfN (reviewer_node exS2 llmApproveEmpty)

/-- A draft model that requests one more file. -/
def llmNeed : String → String :=
  fun _ => "\x7b\"action\": \"need_context\", \"requested_files\": [\"a.py\"]\x7d"

def exE2 : PRReviewState := stateOfN (commentor_node exS1 llmNeed)

theorem step_ctx1 : Step (Node.context, exInit) (Node.commentor, exS1) :=
  Step.ctxOk exInit exCtxO exS1 rfl

theorem reach_commentor_exS1 :
    Reachable exRepo none exPrompt (Node.commentor, exS1) :=
  Relation.ReflTransGen.tail Relation.ReflTransGen.refl step_ctx1

theorem step_comm2 : Step (Node.commentor, exS1) (Node.reviewer, exS2) :=
  Step.commOk exS1 llmDraftHello exS2 Node.reviewer rfl rfl

theorem reach_reviewer_exS2 :
    Reachable exRepo none exPrompt (Node.reviewer, exS2) :=
  Relation.ReflTransGen.tail reach_commentor_exS1 step_comm2

theorem step_revA : Step (Node.reviewer, exS2) (Node.post, exS3) :=
  Step.revOk exS2 llmApprove exS3 Node.post rfl rfl

theorem reach_post_exS3 : Reachable exRepo none exPrompt (Node.post, exS3) :=
  Relation.ReflTransGen.tail reach_reviewer_exS2 step_revA

theorem step_revB : Step (Node.reviewer, exS2) (Node.commentor, exB3) :=
  Step.revOk exS2 llmReject exB3 Node.commentor rfl rfl

theorem reach_commentor_exB3 :
    Reachable exRepo none exPrompt (Node.commentor, exB3) :=
  Relation.ReflTransGen.tail reach_reviewer_exS2 step_revB

theorem step_revC : Step (Node.reviewer, exS2) (Node.post, exC3) :=
  Step.revOk exS2 llmApproveNum exC3 Node.post rfl rfl

theorem reach_post_exC3 : Reachable exRepo none exPrompt (Node.post, exC3) :=
  Relation.ReflTransGen.tail reach_reviewer_exS2 step_revC

theorem step_revD : Step (Node.reviewer, exS2) (Node.post, exD3) :=
  Step.revOk exS2 llmApproveEmpty exD3 Node.post rfl rfl

theorem reach_post_exD3 : Reachable exRepo none exPrompt (Node.post, exD3) :=
  Relation.ReflTransGen.tail reach_reviewer_exS2 step_revD

theorem step_commE : Step (Node.commentor, exS1) (Node.context, exE2) :=
  Step.commOk exS1 llmNeed exE2 Node.context rfl rfl

theorem reach_context_exE2 :
    Reachable exRepo none exPrompt (Node.context, exE2) :=
  Relation.ReflTransGen.tail reach_commentor_exS1 step_commE

/-- The post oracle whose external calls succeed. -/
def exPostO : PostOracle := { client_init := .ok (), post_result := .ok () }

/-- The forced-final draft after the rejection of run B. -/
def exB4 : PRReviewState := stateOfN (commentor_node exB3 llmDraftHello)

theorem step_commB4 : Step (Node.commentor, exB3) (Node.post, exB4) :=
  Step.commOk exB3 llmDraftHello exB4 Node.post rfl rfl

/-- A context request issued while revision notes are pending (run B). -/
def exB5 : PRReviewState := stateOfN (commentor_node exB3 llmNeed)

/-! ## Helper lemmas for the structured-output fallback paths -/

/-- Stripping the pending revision notes succeeds whenever they are absent
or a string. -/
theorem pyStrip_notes_ok (o : Option Json)
    (h : o = none ∨ ∃ s, o = some (Json.str s)) :
    ∃ rn, pyStrip (pyOrJ o (Json.str "")) = .ok rn := by
  rcases h with h | ⟨s, h⟩ <;> subst h
  · exact ⟨"", rfl⟩
  · by_cases hs : pyTruthy (Json.str s) = true
    · refine ⟨pyStripStr s, ?_⟩
      simp [pyOrJ, hs, pyStrip]
    · refine ⟨"", ?_⟩
      simp only [pyOrJ, hs]
      simp at hs
      simp [hs, pyStrip, pyStripStr]

/-- Projections through the _init_obs/_log_agent bookkeeping. -/
theorem li_user_prompt (st : PRReviewState) (n : String) :
    (log_agent (init_obs st) n).user_prompt = st.user_prompt := rfl

theorem li_gathered (st : PRReviewState) (n : String) :
    (log_agent (init_obs st) n).gathered_contexts = st.gathered_contexts := rfl

theorem li_revision_notes (st : PRReviewState) (n : String) :
    (log_agent (init_obs st) n).revision_notes = st.revision_notes := rfl

theorem li_review_comment (st : PRReviewState) (n : String) :
    (log_agent (init_obs st) n).review_comment = st.review_comment := rfl

theorem li_force (st : PRReviewState) (n : String) :
    (log_agent (init_obs st) n).force_commentor_final
      = st.force_commentor_final := rfl

theorem li_needs (st : PRReviewState) (n : String) :
    (log_agent (init_obs st) n).needs_more_context
      = st.needs_more_context := rfl

theorem li_attempts (st : PRReviewState) (n : String) :
    (log_agent (init_obs st) n).reviewer_attempts
      = some (st.reviewer_attempts.getD 0) := rfl

/-- The draft step on a response that json.loads cannot parse: the raw
text becomes the draft and the step returns normally, leaving
needs_more_context and revision_notes untouched. -/
theorem commentor_node_fallback (st : PRReviewState) (llm : String → String)
    (rn : String)
    (hstrip : pyStrip (pyOrJ st.revision_notes (Json.str "")) = .ok rn)
    (hparse : json_loads (llm (commentor_prompt st.user_prompt
      (pyStripStr (st.gathered_contexts.getD "")) rn)) = none) :
    ∃ st', commentor_node st llm = .ok st' ∧
      st'.review_comment = some (Json.str (llm (commentor_prompt
        st.user_prompt (pyStripStr (st.gathered_contexts.getD "")) rn))) ∧
      st'.needs_more_context = st.needs_more_context ∧
      st'.revision_notes = st.revision_notes := by
  have hdata : commentor_data (llm (commentor_prompt st.user_prompt
      (pyStripStr (st.gathered_contexts.getD "")) rn)) =
      Json.obj [("action", Json.str "draft"), ("review_comment",
        Json.str (llm (commentor_prompt st.user_prompt
          (pyStripStr (st.gathered_contexts.getD "")) rn)))] := by
    unfold commentor_data
    rw [hparse]
  have hreq : ∀ r : String, requestsContext (Json.obj [("action",
      Json.str "draft"), ("review_comment", Json.str r)]) = false :=
    fun r => rfl
  have hget : ∀ r : String, jsonGet (Json.obj [("action", Json.str "draft"),
      ("review_comment", Json.str r)]) "action"
      = .ok (some (Json.str "draft")) := fun r => rfl
  have hgetD : ∀ r : String, jsonGetD (Json.obj [("action",
      Json.str "draft"), ("review_comment", Json.str r)]) "review_comment"
      (Json.str "") = .ok (Json.str r) := fun r => rfl
  simp only [commentor_node, li_user_prompt, li_gathered, li_revision_notes,
    li_force, hstrip, hdata, hreq, hget, hgetD, Bool.false_eq_true,
    if_false, add_review_comment_to_pr_review_state]
  by_cases hf : truthyOpt st.force_commentor_final = true
  · simp only [hf, if_true]
    exact ⟨_, rfl, rfl, rfl, rfl⟩
  · simp only [Bool.not_eq_true] at hf
    simp only [hf, Bool.false_eq_true, if_false]
    exact ⟨_, rfl, rfl, rfl, rfl⟩

/-- The gate step on a response that json.loads cannot parse: treated as a
rejection carrying the generic structured-output note, the escape flag is
set (the counter has reached the cap), and the router sends control back
to the draft step. -/
theorem reviewer_node_fallback (st : PRReviewState) (llm : String → String)
    (draft : String)
    (hstrip : pyStrip (pyOrJ st.review_comment (Json.str "")) = .ok draft)
    (hparse : json_loads (llm (reviewer_prompt draft)) = none) :
    ∃ st', reviewer_node st llm = .ok st' ∧
      st'.review_ok = some false ∧
      st'.revision_notes = some (Json.str reviewer_fallback_note) ∧
      route_after_reviewer st' = RouteR.commentor ∧
      st'.force_commentor_final = some true ∧
      st'.reviewer_attempts = some (st.reviewer_attempts.getD 0 + 1) := by
  have hdata : reviewer_data (llm (reviewer_prompt draft)) =
      Json.obj [("ok", Json.bool false), ("revision_notes",
        Json.str reviewer_fallback_note)] := by
    unfold reviewer_data
    rw [hparse]
  have happ : reviewerApproves (Json.obj [("ok", Json.bool false),
      ("revision_notes", Json.str reviewer_fallback_note)]) = false := rfl
  have hget : jsonGet (Json.obj [("ok", Json.bool false),
      ("revision_notes", Json.str reviewer_fallback_note)]) "ok"
      = .ok (some (Json.bool false)) := rfl
  have hgetD : jsonGetD (Json.obj [("ok", Json.bool false),
      ("revision_notes", Json.str reviewer_fallback_note)]) "revision_notes"
      (Json.str "Please rewrite to meet the criteria.")
      = .ok (Json.str reviewer_fallback_note) := rfl
  have hcap : (1 : Nat) ≤ st.reviewer_attempts.getD 0 + 1 :=
    Nat.le_add_left 1 _
  simp only [reviewer_node, li_review_comment, li_attempts, Option.getD_some,
    hstrip, hdata, happ, hget, hgetD, Bool.false_eq_true, if_false,
    log_output, if_pos hcap]
  exact ⟨_, rfl, rfl, rfl, rfl, rfl, rfl⟩

/-! ## The claims -/

/-- C1 (amended).  The post step publishes only under a truthy review_ok:
when review_ok is false or absent it performs no publish call, appends only
the agent/skip log events, and returns the otherwise unchanged state
without error; conversely any publish invocation implies a truthy
review_ok, and at every reachable post entry whose selected body has a
defined length (in particular whenever it is a string) and whose client
constructs, the publish call is invoked with the stored PR number.  (The
unconditional converse of the original claim fails when the gate supplied
a non-string final text: see the counterexample.) -/
theorem C1_publish_iff_review_ok :
    (∀ (st : PRReviewState) (o : PostOracle),
      truthyOpt st.review_ok = false →
      (post_node st o).2 = [] ∧
      ∃ st', (post_node st o).1 = .ok st' ∧
        st'.tool_calls = st.tool_calls ∧
        st'.review_ok = st.review_ok ∧
        st'.final_review_comment = st.final_review_comment ∧
        st'.review_comment = st.review_comment ∧
        st'.events = st.events ++ [Event.agent "PostToGitHub",
          Event.output (Json.str "Skipped posting because review_ok=False")]) ∧
    (∀ (st : PRReviewState) (o : PostOracle),
      (post_node st o).2 ≠ [] → truthyOpt st.review_ok = true) ∧
    (∀ (ru : String) (tok : Option String) (up : String)
      (st : PRReviewState) (o : PostOracle) (L : Nat),
      Reachable ru tok up (Node.post, st) →
      o.client_init = .ok () → pyLen (post_body st) = .ok L →
      ∃ pr, st.pr_number = some pr ∧
        (post_node st o).2 = [(pr, post_body st)]) := by
  refine ⟨?_, ?_, ?_⟩
  · intro st o hok
    rw [post_node_skip_spec st o hok]
    refine ⟨rfl, _, rfl, rfl, rfl, rfl, rfl, ?_⟩
    simp [log_output, log_agent, init_obs]
  · intro st o h
    exact post_node_pubs_sound st o h
  · intro ru tok up st o L hreach hci hL
    obtain ⟨-, -, iprs, -, -, ipost⟩ := inv_of_reachable hreach
    have hok := ipost rfl
    have hps := iprs (Or.inr (Or.inr rfl))
    obtain ⟨pr, hpr⟩ := Option.isSome_iff_exists.mp hps
    exact ⟨pr, hpr, (post_node_pub_spec st o pr L hok hpr hci hL).1⟩

/-- Witness for C1: on the initial state (review_ok absent) the post step
publishes nothing; at the reachable approved post entry of the concrete
run it publishes once with the stored PR number 42. -/
theorem C1_witness :
    (post_node exInit exPostO).2 = [] ∧
    ∃ pr, exS3.pr_number = some pr ∧
      (post_node exS3 exPostO).2 = [(pr, post_body exS3)] :=
  ⟨(C1_publish_iff_review_ok.1 exInit exPostO rfl).1,
   C1_publish_iff_review_ok.2.2 exRepo none exPrompt exS3 exPostO 5
     reach_post_exS3 rfl rfl⟩

/-- Counterexample to C1 as stated: a reachable post entry with review_ok
true (the gate approved with final_review_comment 5, a non-string) on
which the post step performs no publish call at all (len raises first), so
publish-iff-review_ok fails in the only-if-to-if direction. -/
theorem C1_counterexample :
    Reachable exRepo none exPrompt (Node.post, exC3) ∧
    truthyOpt exC3.review_ok = true ∧
    (post_node exC3 exPostO).2 = [] :=
  ⟨reach_post_exC3, rfl, rfl⟩

/-- C2 (amended).  Every gate invocation, returning or raising, increments
reviewer_attempts by exactly one; no step of the graph ever decreases it;
every gate rejection leaves the counter at or past the cap 1 and sets
force_commentor_final, which then remains true for the rest of the run.
(The original "once the counter reaches the cap the flag is true" fails on
the first-attempt approval path: see the counterexample.) -/
theorem C2_attempts_and_escape :
    (∀ (st : PRReviewState) (llm : String → String) (st' : PRReviewState),
      (reviewer_node st llm = .ok st' ∨ reviewer_node st llm = .error st') →
      st'.reviewer_attempts = some (st.reviewer_attempts.getD 0 + 1)) ∧
    (∀ c c' : Config, Step c c' →
      c.2.reviewer_attempts.getD 0 ≤ c'.2.reviewer_attempts.getD 0) ∧
    (∀ (st : PRReviewState) (llm : String → String) (st' : PRReviewState),
      reviewer_node st llm = .ok st' → st'.review_ok = some false →
      st'.force_commentor_final = some true ∧
      1 ≤ st'.reviewer_attempts.getD 0) ∧
    (∀ c c' : Config, Relation.ReflTransGen Step c c' →
      c.2.force_commentor_final = some true →
      c'.2.force_commentor_final = some true) := by
  refine ⟨?_, ?_, ?_, ?_⟩
  · intro st llm st' h
    rcases h with h | h
    · exact (reviewer_node_ok_spec st llm st' h).2.2.2.2.2.2.1
    · exact (reviewer_node_err_spec st llm st' h).2.2.2.2.2.2.2.2.2.2
  · intro c c' h
    exact step_attempts_mono h
  · intro st llm st' h hrej
    obtain ⟨-, -, -, -, -, -, hatt, draft, -, hbr⟩ :=
      reviewer_node_ok_spec st llm st' h
    rcases hbr with ⟨-, ft, -, hokT, -⟩ | ⟨-, notes, -, -, hrn, -, hforce⟩
    · rw [hokT] at hrej
      simp at hrej
    · refine ⟨hforce, ?_⟩
      rw [hatt]
      exact Nat.le_add_left 1 _
  · intro c c' h hf
    exact force_persist h hf

/-- Witness for C2: in the rejection run the counter goes from 0 to 1, the
escape flag is set by the rejection, persists into the forced-final draft
step, and the counter does not decrease across that step. -/
theorem C2_witness :
    exB3.reviewer_attempts = some (exS2.reviewer_attempts.getD 0 + 1) ∧
    (exB3.force_commentor_final = some true ∧
      1 ≤ exB3.reviewer_attempts.getD 0) ∧
    exB4.force_commentor_final = some true ∧
    exB3.reviewer_attempts.getD 0 ≤ exB4.reviewer_attempts.getD 0 :=
  ⟨C2_attempts_and_escape.1 exS2 llmReject exB3 (Or.inl rfl),
   C2_attempts_and_escape.2.2.1 exS2 llmReject exB3 rfl rfl,
   C2_attempts_and_escape.2.2.2 (Node.commentor, exB3) (Node.post, exB4)
     (Relation.ReflTransGen.tail Relation.ReflTransGen.refl step_commB4) rfl,
   C2_attempts_and_escape.2.1 (Node.commentor, exB3) (Node.post, exB4)
     step_commB4⟩

/-- Counterexample to C2 as stated: when the single gate invocation
approves, the run reaches the post step with reviewer_attempts at the cap
1 while force_commentor_final was never set. -/
theorem C2_counterexample :
    Reachable exRepo none exPrompt (Node.post, exS3) ∧
    exS3.reviewer_attempts = some 1 ∧
    exS3.force_commentor_final ≠ some true := by
  refine ⟨reach_post_exS3, rfl, ?_⟩
  rw [show exS3.force_commentor_final = none from rfl]
  simp

/-- C3 (amended).  In every reachable state of every run, review_ok = True
implies that final_review_comment is present (set by the approving gate or
the forced-final draft).  (Non-emptiness fails: the gate may approve with
an empty final text, see the counterexample.) -/
theorem C3_review_ok_implies_final :
    ∀ (ru : String) (tok : Option String) (up : String) (cfg : Config),
      Reachable ru tok up cfg → cfg.2.review_ok = some true →
      cfg.2.final_review_comment.isSome = true :=
  fun _ _ _ _ hreach h0 => (inv_of_reachable hreach).2.2.2.2.1 h0

/-- Witness for C3 at the approved post entry of the concrete run. -/
theorem C3_witness : (Node.post, exS3).2.final_review_comment.isSome = true :=
  C3_review_ok_implies_final exRepo none exPrompt (Node.post, exS3)
    reach_post_exS3 rfl

/-- Counterexample to C3 as stated: the gate may approve supplying an empty
final_review_comment, reaching the post step with review_ok true and an
empty final text. -/
theorem C3_counterexample :
    Reachable exRepo none exPrompt (Node.post, exD3) ∧
    exD3.review_ok = some true ∧
    exD3.final_review_comment = some (Json.str "") :=
  ⟨reach_post_exD3, rfl, rfl⟩

/-- C4 (amended).  At every reachable draft-step entry whose pending
revision notes are absent or a string, if the model response is not
parseable as JSON the step does not raise: the raw response text becomes
review_comment verbatim and needs_more_context is false in the resulting
state.  (The unconditional "never raises" fails when the response is valid
JSON whose top-level value is not an object: see the counterexample.) -/
theorem C4_parse_failure_is_draft :
    ∀ (ru : String) (tok : Option String) (up : String)
      (st : PRReviewState) (llm : String → String),
      Reachable ru tok up (Node.commentor, st) →
      (st.revision_notes = none ∨
        ∃ s, st.revision_notes = some (Json.str s)) →
      (∀ p, json_loads (llm p) = none) →
      ∃ st' rn, pyStrip (pyOrJ st.revision_notes (Json.str "")) = .ok rn ∧
        commentor_node st llm = .ok st' ∧
        st'.review_comment = some (Json.str (llm (commentor_prompt
          st.user_prompt (pyStripStr (st.gathered_contexts.getD "")) rn))) ∧
        st'.needs_more_context = some false := by
  intro ru tok up st llm hreach hnotes hparse
  obtain ⟨rn, hstrip⟩ := pyStrip_notes_ok st.revision_notes hnotes
  obtain ⟨st', hok, hrc, hneeds, -⟩ :=
    commentor_node_fallback st llm rn hstrip (hparse _)
  have hn0 : st.needs_more_context = some false :=
    (inv_of_reachable hreach).2.2.2.1 (Or.inl rfl)
  exact ⟨st', rn, hstrip, hok, hrc, hneeds.trans hn0⟩

/-- Witness for C4: the reachable first draft entry of the concrete run
with a model that answers plain text. -/
theorem C4_witness :
    ∃ st' rn, pyStrip (pyOrJ exS1.revision_notes (Json.str "")) = .ok rn ∧
      commentor_node exS1 (fun _ => "not json") = .ok st' ∧
      st'.review_comment = some (Json.str ((fun _ : String => "not json")
        (commentor_prompt exS1.user_prompt
          (pyStripStr (exS1.gathered_contexts.getD "")) rn))) ∧
      st'.needs_more_context = some false :=
  C4_parse_failure_is_draft exRepo none exPrompt exS1 (fun _ => "not json")
    reach_commentor_exS1 (Or.inl rfl) (fun _ => rfl)

/-- Counterexample to C4 as stated: at a reachable draft entry, the model
responses "null" and "NaN" are accepted by json.loads (None and the float
nan), and data.get on the resulting non-dict raises AttributeError — the
step raises. -/
theorem C4_counterexample :
    Reachable exRepo none exPrompt (Node.commentor, exS1) ∧
    commentor_node exS1 (fun _ => "null") =
      .error (log_agent (init_obs exS1) "CommentorAgent") ∧
    json_loads "NaN" = some Json.nan ∧
    commentor_node exS1 (fun _ => "NaN") =
      .error (log_agent (init_obs exS1) "CommentorAgent") :=
  ⟨reach_commentor_exS1, rfl, rfl, rfl⟩

/-- C5.  A gate-step model response that fails structured-output parsing
never raises: the step returns with review_ok false, the generic
structured-output note stored as revision_notes, the router sends control
back to the draft step, and the attempt counter/escape flag keep the loop
bounded by the cap (the rejection leaves the flag set). -/
theorem C5_gate_parse_failure :
    ∀ (st : PRReviewState) (llm : String → String) (draft : String),
      pyStrip (pyOrJ st.review_comment (Json.str "")) = .ok draft →
      json_loads (llm (reviewer_prompt draft)) = none →
      ∃ st', reviewer_node st llm = .ok st' ∧
        st'.review_ok = some false ∧
        st'.revision_notes = some (Json.str reviewer_fallback_note) ∧
        route_after_reviewer st' = RouteR.commentor ∧
        st'.force_commentor_final = some true ∧
        st'.reviewer_attempts = some (st.reviewer_attempts.getD 0 + 1) :=
  fun st llm draft h1 h2 => reviewer_node_fallback st llm draft h1 h2

/-- Witness for C5: the gate of the concrete run fed a non-JSON answer. -/
theorem C5_witness :
    ∃ st', reviewer_node exS2 (fun _ => "no json here") = .ok st' ∧
      st'.review_ok = some false ∧
      st'.revision_notes = some (Json.str reviewer_fallback_note) ∧
      route_after_reviewer st' = RouteR.commentor ∧
      st'.force_commentor_final = some true ∧
      st'.reviewer_attempts = some (exS2.reviewer_attempts.getD 0 + 1) :=
  C5_gate_parse_failure exS2 (fun _ => "no json here") "hello" rfl rfl

/-- C6.  The PR number comes from the first hash-digits or PR-digits match
in the prompt: with no stored number, a prompt with no match makes the
context step raise ValueError (and a failed run takes no further step,
hence no retry), a prompt with a match stores its first match; and once
some PR number is stored it never changes for the rest of the run,
context-step re-entries included. -/
theorem C6_pr_number_resolution :
    (∀ (st : PRReviewState) (o : ContextOracle), st.pr_number = none →
      o.client_init = .ok () →
      extract_pr_number st.user_prompt = .error () →
      context_node st o =
        .error (CtxErr.valueError, log_agent (init_obs st) "ContextAgent")) ∧
    (∀ (st : PRReviewState) (o : ContextOracle) (st' : PRReviewState)
      (n : Nat), st.pr_number = none →
      extract_pr_number st.user_prompt = .ok n →
      context_node st o = .ok st' → st'.pr_number = some n) ∧
    (∀ (ru : String) (tok : Option String) (up : String)
      (cfg cfg' : Config) (k : Nat), Reachable ru tok up cfg →
      Relation.ReflTransGen Step cfg cfg' → cfg.2.pr_number = some k →
      cfg'.2.pr_number = some k) ∧
    (∀ (st : PRReviewState) (cfg' : Config),
      ¬ Step (Node.failed, st) cfg') := by
  refine ⟨?_, ?_, ?_, ?_⟩
  · intro st o hpn hci hext
    have hres : resolve_pr_number st = .error () := by
      unfold resolve_pr_number
      rw [hpn]
      exact hext
    simp only [context_node, hci, resolve_pr_number_log, hres]
  · intro st o st' n hpn hext hok
    obtain ⟨⟨m, hres, hpr⟩, -⟩ := context_node_ok_spec st o st' hok
    have hres2 : resolve_pr_number st = .ok n := by
      unfold resolve_pr_number
      rw [hpn]
      exact hext
    have hmn := hres2.symm.trans hres
    simp only [Except.ok.injEq] at hmn
    rw [hpr, hmn]
  · exact fun ru tok up cfg cfg' k hreach hrtg hk =>
      (inv_pr_stable_rtg hrtg (inv_of_reachable hreach) hk).2
  · exact fun st cfg' => failed_no_step st cfg'

/-- Witness for C6: a prompt with no PR pattern fails the context step; the
concrete run resolves 42 from "Please review PR number 42" syntax and keeps
it unchanged through draft and gate up to the post entry; a failed run is
stuck. -/
theorem C6_witness :
    context_node (initState exRepo none "no number in this text") exCtxO =
      .error (CtxErr.valueError, log_agent (init_obs (initState exRepo none
        "no number in this text")) "ContextAgent") ∧
    exS1.pr_number = some 42 ∧
    exS3.pr_number = some 42 ∧
    ¬ Step (Node.failed, exInit) (Node.context, exInit) :=
  ⟨C6_pr_number_resolution.1 (initState exRepo none "no number in this text")
      exCtxO rfl rfl rfl,
   C6_pr_number_resolution.2.1 exInit exCtxO exS1 42 rfl rfl rfl,
   C6_pr_number_resolution.2.2.1 exRepo none exPrompt (Node.commentor, exS1)
     (Node.post, exS3) 42 reach_commentor_exS1
     (Relation.ReflTransGen.tail (Relation.ReflTransGen.tail
       Relation.ReflTransGen.refl step_comm2) step_revA) rfl,
   C6_pr_number_resolution.2.2.2 exInit (Node.context, exInit)⟩

/-- The fixed prompt text preceding the interpolated revision notes. -/
def commentor_prompt_before_notes (user_prompt gathered : String) : String :=
  "\n" ++ COMMENTOR_AGENT_SYSTEM_PROMPT ++ "\n\nUSER REQUEST:\n"
    ++ user_prompt ++ "\n\nAVAILABLE CONTEXT:\n" ++ gathered
    ++ "\n\nREVISION NOTES FROM REVIEWER (if any):\n"

/-- The fixed prompt text following the interpolated revision notes. -/
def commentor_prompt_after_notes : String :=
  "\n\nTASK:\n1) If you need more repository files to write a correct review, output JSON:\n   \x7b\"action\":\"need_context\",\"requested_files\":[\"path/a.py\",\"path/b.md\"]\x7d\n2) Otherwise output JSON:\n   \x7b\"action\":\"draft\",\"review_comment\":\"...markdown 200-300 words...\"\x7d\n"

/-- C7 (amended).  The stripped revision notes are interpolated into the
prompt of the next draft-step invocation (consumed as input); afterwards
revision_notes is cleared to the empty string when the step produced a
context request, and left unchanged when it produced a draft.  (The
original "empty afterwards regardless of branch" fails on the draft
branch: see the counterexample.) -/
theorem C7_revision_notes_lifecycle :
    (∀ up g rn : String, commentor_prompt up g rn =
      commentor_prompt_before_notes up g ++ rn
        ++ commentor_prompt_after_notes) ∧
    (∀ (st : PRReviewState) (llm : String → String) (st' : PRReviewState)
      (rn : String),
      pyStrip (pyOrJ st.revision_notes (Json.str "")) = .ok rn →
      commentor_node st llm = .ok st' →
      (requestsContext (commentor_data (llm (commentor_prompt st.user_prompt
        (pyStripStr (st.gathered_contexts.getD "")) rn))) = true →
        st'.revision_notes = some (Json.str "")) ∧
      (requestsContext (commentor_data (llm (commentor_prompt st.user_prompt
        (pyStripStr (st.gathered_contexts.getD "")) rn))) = false →
        st'.revision_notes = st.revision_notes)) := by
  refine ⟨fun up g rn => rfl, ?_⟩
  intro st llm st' rn hstrip hok
  obtain ⟨-, -, -, -, -, rn', hrn', hbr⟩ := commentor_node_ok_spec st llm st' hok
  have hrn : rn' = rn := by
    have h2 := hstrip.symm.trans hrn'
    simp only [Except.ok.injEq] at h2
    exact h2.symm
  subst hrn
  rcases hbr with ⟨hreqT, -, -, hcleared, -⟩ | ⟨hreqF, -, -, hkept, -⟩
  · constructor
    · intro _
      exact hcleared
    · intro hfalse
      rw [hreqT] at hfalse
      cases hfalse
  · constructor
    · intro htrue
      rw [hreqF] at htrue
      cases htrue
    · intro _
      exact hkept

/-- Witness for C7: the prompt decomposes around the notes, and on the
concrete rejected run a context-requesting draft step clears the pending
"fix X" notes. -/
theorem C7_witness :
    (commentor_prompt "u" "g" "notes" =
      commentor_prompt_before_notes "u" "g" ++ "notes"
        ++ commentor_prompt_after_notes) ∧
    exB5.revision_notes = some (Json.str "") :=
  ⟨C7_revision_notes_lifecycle.1 "u" "g" "notes",
   (C7_revision_notes_lifecycle.2 exB3 llmNeed exB5 "fix X" rfl rfl).1 rfl⟩

/-- Counterexample to C7 as stated: at a reachable draft entry with
non-empty revision notes, a draft-producing invocation returns with
revision_notes still "fix X", not empty. -/
theorem C7_counterexample :
    Reachable exRepo none exPrompt (Node.commentor, exB3) ∧
    exB3.revision_notes = some (Json.str "fix X") ∧
    commentor_node exB3 llmDraftHello = .ok exB4 ∧
    exB4.revision_notes = some (Json.str "fix X") :=
  ⟨reach_commentor_exB3, rfl, rfl, rfl⟩

/-- C8 (amended).  After every successful context-step execution,
needs_more_context is false and requested_files is empty; a context-step
execution whose client construction, PR resolution or external fetches
raise leaves both fields exactly as they were on entry (the reset runs at
the end of the step, not at the start — see the counterexample — and a
failing run aborts, so no stale request is ever consumed). -/
theorem C8_context_reset :
    (∀ (st : PRReviewState) (o : ContextOracle) (st' : PRReviewState),
      context_node st o = .ok st' →
      st'.needs_more_context = some false ∧
      st'.requested_files = some (Json.arr [])) ∧
    (∀ (st : PRReviewState) (o : ContextOracle) (e : CtxErr)
      (st' : PRReviewState), context_node st o = .error (e, st') →
      st'.needs_more_context = st.needs_more_context ∧
      st'.requested_files = st.requested_files) := by
  constructor
  · intro st o st' h
    obtain ⟨-, h1, h2, -⟩ := context_node_ok_spec st o st' h
    exact ⟨h1, h2⟩
  · intro st o e st' h
    obtain ⟨h1, h2, -⟩ := context_node_err_spec st o e st' h
    exact ⟨h1, h2⟩

/-- Witness for C8: the successful first context step of the concrete run
clears both fields; the failing re-entry preserves them. -/
theorem C8_witness :
    (exS1.needs_more_context = some false ∧
      exS1.requested_files = some (Json.arr [])) ∧
    ((stateOfCtx (context_node exE2 exCtxOFail)).needs_more_context =
        exE2.needs_more_context ∧
      (stateOfCtx (context_node exE2 exCtxOFail)).requested_files =
        exE2.requested_files) :=
  ⟨C8_context_reset.1 exInit exCtxO exS1 rfl,
   C8_context_reset.2 exE2 exCtxOFail (CtxErr.ghError "boom")
     (stateOfCtx (context_node exE2 exCtxOFail)) rfl⟩

/-- Counterexample to C8 as stated: a reachable context re-entry with a
pending request whose PR-details fetch fails raises with
needs_more_context still true and requested_files still non-empty — the
fields are not reset at the start of the execution. -/
theorem C8_counterexample :
    Reachable exRepo none exPrompt (Node.context, exE2) ∧
    exE2.needs_more_context = some true ∧
    context_node exE2 exCtxOFail =
      .error (CtxErr.ghError "boom",
        stateOfCtx (context_node exE2 exCtxOFail)) ∧
    (stateOfCtx (context_node exE2 exCtxOFail)).needs_more_context =
      some true ∧
    (stateOfCtx (context_node exE2 exCtxOFail)).requested_files =
      some (Json.arr [Json.str "a.py"]) :=
  ⟨reach_context_exE2, rfl, rfl, rfl, rfl⟩

/-- C9 (amended).  For a post entry with review_ok true whose selected
body has a defined length (as every string body has) and whose client
constructs: the external publish call is invoked exactly once, its body is
final_review_comment when that is present and truthy, falling back to
review_comment when final_review_comment is empty or absent, and the
recorded tool-call entry carries the PR number and the body length (its
argument type has no field for the body text).  (The unconditional
"exactly once" fails when the gate supplied a non-string final text: see
the counterexample.) -/
theorem C9_publish_body_and_log :
    (∀ (st : PRReviewState) (o : PostOracle) (pr L : Nat),
      truthyOpt st.review_ok = true → st.pr_number = some pr →
      o.client_init = .ok () → pyLen (post_body st) = .ok L →
      (post_node st o).2 = [(pr, post_body st)] ∧
      ∃ st', ((post_node st o).1 = .ok st' ∨
          (post_node st o).1 = .error st') ∧
        st'.tool_calls = st.tool_calls ++
          [⟨"post_review_comment", ToolArgs.postReview pr L⟩]) ∧
    (∀ (st : PRReviewState) (j : Json), st.final_review_comment = some j →
      pyTruthy j = true → post_body st = j) ∧
    (∀ (st : PRReviewState) (j : Json),
      (st.final_review_comment = none ∨
        st.final_review_comment = some (Json.str "")) →
      st.review_comment = some j → pyTruthy j = true → post_body st = j) := by
  refine ⟨?_, ?_, ?_⟩
  · exact fun st o pr L hok hpr hci hL =>
      post_node_pub_spec st o pr L hok hpr hci hL
  · intro st j hfin htr
    unfold post_body pyOrJ
    rw [hfin]
    simp [htr]
  · intro st j hfin hrc htr
    have hempty : pyTruthy (Json.str "") = false := rfl
    rcases hfin with hfin | hfin <;>
      simp [post_body, pyOrJ, hfin, hrc, htr, hempty]

/-- Witness for C9 on the concrete approved run: one publish call with PR
42 and the 5-character body "hello"; the body selection prefers the final
text and falls back to the draft when the final text is empty. -/
theorem C9_witness :
    ((post_node exS3 exPostO).2 = [(42, post_body exS3)] ∧
      ∃ st', ((post_node exS3 exPostO).1 = .ok st' ∨
          (post_node exS3 exPostO).1 = .error st') ∧
        st'.tool_calls = exS3.tool_calls ++
          [⟨"post_review_comment", ToolArgs.postReview 42 5⟩]) ∧
    post_body exS3 = Json.str "hello" ∧
    post_body exD3 = Json.str "hello" :=
  ⟨C9_publish_body_and_log.1 exS3 exPostO 42 5 rfl rfl rfl rfl,
   C9_publish_body_and_log.2.1 exS3 (Json.str "hello") rfl rfl,
   C9_publish_body_and_log.2.2 exD3 (Json.str "hello") (Or.inr rfl) rfl rfl⟩

/-- Counterexample to C9 as stated: at a reachable post entry with
review_ok true but a non-string final text (the number 5), len(body)
raises before the tool-call log and before the publish call — zero publish
invocations, not exactly one. -/
theorem C9_counterexample :
    Reachable exRepo none exPrompt (Node.post, exC3) ∧
    exC3.review_ok = some true ∧
    post_node exC3 exPostO =
      (.error (log_agent (init_obs exC3) "PostToGitHub"), []) :=
  ⟨reach_post_exC3, rfl, rfl⟩

/-- C10.  A draft-step invocation that produces a draft (does not request
more context) while the escape flag is not set leaves review_ok false, so
a fresh draft always invalidates any prior approval and must pass the gate
before the post step can publish it. -/
theorem C10_fresh_draft_clears_approval :
    ∀ (st : PRReviewState) (llm : String → String) (st' : PRReviewState)
      (rn : String),
      truthyOpt st.force_commentor_final = false →
      pyStrip (pyOrJ st.revision_notes (Json.str "")) = .ok rn →
      commentor_node st llm = .ok st' →
      requestsContext (commentor_data (llm (commentor_prompt st.user_prompt
        (pyStripStr (st.gathered_contexts.getD "")) rn))) = false →
      st'.review_ok = some false := by
  intro st llm st' rn hforce hstrip hok hreq
  obtain ⟨-, -, -, -, -, rn', hrn', hbr⟩ := commentor_node_ok_spec st llm st' hok
  have hrn : rn' = rn := by
    have h2 := hstrip.symm.trans hrn'
    simp only [Except.ok.injEq] at h2
    exact h2.symm
  subst hrn
  rcases hbr with ⟨hreqT, -⟩ | ⟨-, -, -, -, rc, -, -, hbr2⟩
  · rw [hreqT] at hreq
    cases hreq
  · rcases hbr2 with ⟨hfT, -, -⟩ | ⟨-, hokF, -⟩
    · rw [hfT] at hforce
      cases hforce
    · exact hokF

/-- Witness for C10: the first draft of the concrete run leaves review_ok
false. -/
theorem C10_witness : exS2.review_ok = some false :=
  C10_fresh_draft_clears_approval exS1 llmDraftHello exS2 "" rfl rfl rfl rfl

end PRReview
